import Mathlib

/-!
# Verification of the bedtime-story generator core (`main.py`)

A shallow embedding of the core of the story generator: the tolerant
structured-text parsers, the retrying call gateway, the Draft-Judge-Refine
loop, and the interactive continuation engine, together with proofs of the
behavioural properties claimed in the specification.

Strings are modelled as `List Char` internally (`String` at the interfaces).
The Python `re` searches used by the source are embedded operationally: each
concrete pattern becomes an explicit left-to-right scanner whose backtracking
behaviour matches the Python engine on that pattern.  Case-insensitive
matching is modelled at ASCII level (all labels in the source are ASCII).
-/

namespace Bedtime

/-- Python's `str` whitespace class (`\s`, `str.strip`): ASCII whitespace,
the C1 separators, and the Unicode space characters. -/
def pyIsSpace (c : Char) : Bool :=
  c = ' ' || c = '\t' || c = '\n' || c = '\x0b' || c = '\x0c' || c = '\r' ||
  c = '\x1c' || c = '\x1d' || c = '\x1e' || c = '\x1f' || c = '\x85' ||
  c = '\xa0' || c = '\u1680' ||
  ('\u2000' ≤ c && c ≤ '\u200a') ||
  c = '\u2028' || c = '\u2029' || c = '\u202f' || c = '\u205f' || c = '\u3000'

/-- ASCII lower-casing (Python `str.lower` / `re.IGNORECASE` restricted to
the ASCII letters, which is all the source's labels use). -/
def asciiLower (c : Char) : Char :=
  if 'A' ≤ c && c ≤ 'Z' then Char.ofNat (c.toNat + 32) else c

/-- ASCII upper-casing (Python `str.upper` on ASCII). -/
def asciiUpper (c : Char) : Char :=
  if 'a' ≤ c && c ≤ 'z' then Char.ofNat (c.toNat - 32) else c

/-- Case-insensitive character comparison. -/
def charCI (a b : Char) : Bool := asciiLower a = asciiLower b

/-- `str.lstrip()` on a character list. -/
def pyLstripList (l : List Char) : List Char := l.dropWhile pyIsSpace

/-- `str.rstrip()` on a character list. -/
def pyRstripList (l : List Char) : List Char :=
  (l.reverse.dropWhile pyIsSpace).reverse

/-- `str.strip()` on a character list. -/
def pyStripList (l : List Char) : List Char := pyRstripList (pyLstripList l)

/-- `str.strip()` on a string. -/
def pyStrip (s : String) : String := ⟨pyStripList s.data⟩

/-- `str.rstrip()` on a string. -/
def pyRstrip (s : String) : String := ⟨pyRstripList s.data⟩

/-- Skip a (greedy) `\s*`. -/
def dropSpaces (l : List Char) : List Char := l.dropWhile pyIsSpace

/-- Match a literal pattern case-insensitively at the head of the input,
returning the remainder after the pattern. -/
def matchCI : List Char → List Char → Option (List Char)
  | [], l => some l
  | _ :: _, [] => none
  | p :: pt, a :: t => if charCI p a then matchCI pt t else none

/-- Match a literal pattern case-sensitively at the head of the input,
returning the remainder after the pattern. -/
def matchExact : List Char → List Char → Option (List Char)
  | [], l => some l
  | _ :: _, [] => none
  | p :: pt, a :: t => if p = a then matchExact pt t else none

/-- Does a case-insensitive occurrence of `pat` start at the head of `l`? -/
def startsWithCI (pat l : List Char) : Bool := (matchCI pat l).isSome

/-- Does `l` contain a case-insensitive occurrence of `pat`
(`pat` assumed non-empty)? -/
def containsCI (pat : List Char) : List Char → Bool
  | [] => startsWithCI pat []
  | a :: t => startsWithCI pat (a :: t) || containsCI pat t

/-- `re.search`: try the position matcher `f` at every start position, left
to right, returning the first success (the empty suffix included). -/
def scanFirst (f : List Char → Option α) : List Char → Option α
  | [] => f []
  | a :: t =>
    match f (a :: t) with
    | some r => some r
    | none => scanFirst f t

/-- A lazy capture `(.*?)` (DOTALL) running until the stopping condition
holds at the current suffix; the end of the input always stops it. -/
def captureLazy (stop : List Char → Bool) : List Char → List Char
  | [] => []
  | a :: t => if stop (a :: t) then [] else a :: captureLazy stop t

/-- A lazy capture `(.*?)$` (DOTALL, no MULTILINE): everything up to the end
of the input, except that a single final newline is left out (Python's `$`
also matches just before a terminal `'\n'`). -/
def captureToDollar (l : List Char) : List Char :=
  if l.getLast? = some '\n' then l.dropLast else l

/-- Consume the `\s*:?\s*` separator that follows every label in the
source's patterns (greedy whitespace, optional colon, greedy whitespace). -/
def dropLabelSep (l : List Char) : List Char :=
  let r := dropSpaces l
  match r with
  | ':' :: r' => dropSpaces r'
  | _ => r

/-- Python `str.replace(pat, "")`: remove every (left-to-right,
non-overlapping, case-sensitive) occurrence of `pat`. -/
def removeAll (pat : List Char) (l : List Char) : List Char :=
  match l with
  | [] => []
  | a :: t =>
    if (matchExact pat (a :: t)).isSome && pat.length != 0 then
      -- a successful `matchExact` consumes exactly `pat.length` characters
      removeAll pat (t.drop (pat.length - 1))
    else a :: removeAll pat t
  termination_by l.length
  decreasing_by
  all_goals simp [List.length_drop]
  all_goals omega

/-- Python's decimal rendering of a natural number (`f"{n}"`), accumulator
form; the first argument is structural fuel (any value above the number of
digits, so `n + 1` always suffices). -/
def natReprAux : Nat → Nat → List Char → List Char
  | 0, _, acc => acc
  | fuel + 1, n, acc =>
    if n < 10 then Char.ofNat (48 + n) :: acc
    else natReprAux fuel (n / 10) (Char.ofNat (48 + n % 10) :: acc)

/-- Python's decimal rendering of a natural number (`f"{n}"`). -/
def natRepr (n : Nat) : List Char := natReprAux (n + 1) n []

/-- Python `str.splitlines()` line-break characters (other than `'\r'`,
which is handled separately so that `"\r\n"` counts as one break). -/
def isLineBreak (c : Char) : Bool :=
  c = '\n' || c = '\x0b' || c = '\x0c' || c = '\x1c' || c = '\x1d' ||
  c = '\x1e' || c = '\x85' || c = '\u2028' || c = '\u2029'

/-- Python `str.splitlines()` on a character list. -/
def splitlinesAux : List Char → List Char → List (List Char)
  | [], acc => if acc.isEmpty then [] else [acc.reverse]
  | '\r' :: '\n' :: rest, acc => acc.reverse :: splitlinesAux rest []
  | '\r' :: rest, acc => acc.reverse :: splitlinesAux rest []
  | c :: rest, acc =>
    if isLineBreak c then acc.reverse :: splitlinesAux rest []
    else splitlinesAux rest (c :: acc)

/-- Python `str.splitlines()`. -/
def splitlinesPy (l : List Char) : List (List Char) := splitlinesAux l []


/-! ## Data model (`StoryCategory`, `StoryRequest`, `JudgeFeedback`, `Story`) -/

inductive StoryCategory where
  | adventure | fantasy | animal | friendship | bedtime | educational | funny
deriving Repr, DecidableEq

structure StoryRequest where
  raw_input : String
  category : StoryCategory
  characters : List String
  themes : List String
  setting : String
  tone : String
deriving Repr, DecidableEq

structure JudgeFeedback where
  overall_score : Int
  age_appropriateness : Int
  engagement : Int
  moral_clarity : Int
  story_structure : Int
  language_quality : Int
  feedback : String
  suggestions : List String
deriving Repr, DecidableEq

structure Story where
  title : String
  content : String
  moral : String
  version : Nat
deriving Repr, DecidableEq

/-! ## Small utilities from the source -/

/-- `clamp_int(value, lo, hi, default)`: the `int(value)` conversion is
modelled as an `Option Int` argument (`none` when the conversion raises). -/
def clamp_int (value : Option Int) (lo hi dflt : Int) : Int :=
  match value with
  | some v => max lo (min hi v)
  | none => dflt

/-- The set of allowed tones in `normalize_tone`. -/
def allowedTones : List String :=
  ["whimsical", "exciting", "calming", "humorous", "heartwarming", "inspiring"]

/-- `normalize_tone(tone)`: strip, lower-case, and fall back to
`"whimsical"` when the result is not an allowed tone. -/
def normalize_tone (tone : String) : String :=
  let t : String := ⟨(pyStripList tone.data).map asciiLower⟩
  if t ∈ allowedTones then t else "whimsical"

/-- `format_story_for_context(story)`. -/
def format_story_for_context (story : Story) : String :=
  "TITLE: " ++ story.title ++ "\nSTORY:\n" ++ story.content ++
    "\nMORAL: " ++ story.moral ++ "\nVERSION: " ++ ⟨natRepr story.version⟩

/-! ## The judge-response extractor (`parse_judge_response`)

Each score is located with a pattern of the form
`LABEL1[_\s]?LABEL2\s*:?\s*(\d+)` (IGNORECASE).  `re.search` scans start
positions left to right; at a given position the label must match, then the
separator is consumed greedily and at least one digit must follow.
Backtracking inside `\s*:?\s*` can never rescue a failed `\d+` (whitespace
and `:` are not digits), and the `[_\s]?` alternatives can never both lead
to a label match (the separator character cannot start the second word), so
the scan below is exactly the engine's behaviour. -/

/-- `\s*:?\s*(\d+)` after a matched label: the captured digit run, if any. -/
def labelSepDigits (r : List Char) : Option (List Char) :=
  let r2 := dropLabelSep r
  let ds := r2.takeWhile Char.isDigit
  if ds.isEmpty then none else some ds

/-- Match `W1[_\s]?W2\s*:?\s*(\d+)` (or `W1\s*:?\s*(\d+)` when there is no
second word) at this position, returning the captured digits. -/
def scoreMatchAt (w1 : List Char) (w2 : Option (List Char)) (l : List Char) :
    Option (List Char) :=
  match matchCI w1 l with
  | none => none
  | some r =>
    match w2 with
    | none => labelSepDigits r
    | some w =>
      match r with
      | [] => none
      | c :: r' =>
        if c = '_' || pyIsSpace c then
          match matchCI w r' with
          | some r2 => labelSepDigits r2
          | none =>
            -- greedy `[_\s]?` backtracks to the empty alternative; it can
            -- never succeed there (w starts with a letter, c does not), but
            -- the attempt is kept for fidelity
            match matchCI w r with
            | some r2 => labelSepDigits r2
            | none => none
        else
          match matchCI w r with
          | some r2 => labelSepDigits r2
          | none => none

/-- The digits captured by the first successful score match, if any. -/
def findScoreDigits (w1 : List Char) (w2 : Option (List Char))
    (l : List Char) : Option (List Char) :=
  scanFirst (scoreMatchAt w1 w2) l

/-- `int(...)` of a non-empty decimal digit run. -/
def digitsToNat (ds : List Char) : Nat :=
  ds.foldl (fun n c => 10 * n + (c.toNat - 48)) 0

/-- `find_score(pattern, default)` from `parse_judge_response`. -/
def find_score (w1 : List Char) (w2 : Option (List Char)) (dflt : Int)
    (l : List Char) : Int :=
  match findScoreDigits w1 w2 l with
  | some ds => clamp_int (some ((digitsToNat ds : Nat) : Int)) 1 10 dflt
  | none => dflt

/-- The lookahead `(?=(?:SUGGESTIONS|Suggestions)\s*:)` (IGNORECASE). -/
def suggestionsStop (t : List Char) : Bool :=
  match matchCI "suggestions".data t with
  | some r => (dropSpaces r).head? = some ':'
  | none => false

/-- The `$` alternative of a lookahead, as a condition on the current
suffix: the end of input stops `captureLazy` by itself, and `$` also holds
just before a terminal newline. -/
def dollarStop (t : List Char) : Bool := t = ['\n']

/-- `(?:FEEDBACK|Feedback)\s*:?\s*(.*?)(?=(?:SUGGESTIONS|Suggestions)\s*:|$)`
(IGNORECASE, DOTALL) at this position. -/
def feedbackAt (l : List Char) : Option (List Char) :=
  match matchCI "feedback".data l with
  | some r =>
    some (captureLazy (fun t => suggestionsStop t || dollarStop t)
      (dropLabelSep r))
  | none => none

/-- `(?:SUGGESTIONS|Suggestions)\s*:?\s*(.*?)$` (IGNORECASE, DOTALL) at this
position. -/
def suggestionsAt (l : List Char) : Option (List Char) :=
  match matchCI "suggestions".data l with
  | some r => some (captureToDollar (dropLabelSep r))
  | none => none

/-- The characters of the bullet class `[-â€¢*]` (the source file holds the
mojibake bytes of a UTF-8 bullet). -/
def isBulletChar (c : Char) : Bool :=
  c = '-' || c = 'â' || c = '€' || c = '¢' || c = '*'

/-- `re.findall(r"[-â€¢*]\s*(.+)", text)`: all (non-overlapping) bullet
captures, left to right. -/
def findallBullets (l : List Char) : List (List Char) :=
  match l with
  | [] => []
  | a :: t =>
    if isBulletChar a then
      let ws := t.takeWhile pyIsSpace
      let r := t.drop ws.length
      match r with
      | [] =>
        -- the tail is all whitespace: the greedy `\s*` backtracks one
        -- character at a time, so the capture, if any, is the last
        -- non-newline (whitespace) character, and nothing follows it
        match t.reverse.dropWhile (fun c => c = '\n') with
        | [] => []
        | c :: _ => [[c]]
      | _ :: _ =>
        let cap := r.takeWhile (fun c => c ≠ '\n')
        cap :: findallBullets (r.drop cap.length)
    else findallBullets t
  termination_by l.length
  decreasing_by
  all_goals simp [List.length_drop]
  all_goals omega

/-- The `SUGGESTIONS` block of `parse_judge_response`. -/
def parseSuggestions (text : List Char) : List String :=
  match scanFirst suggestionsAt text with
  | none => []
  | some cap =>
    let suggestions_text := pyStripList cap
    let bullet_lines := findallBullets suggestions_text
    let sugg := (bullet_lines.map pyStripList).filter (fun s => !s.isEmpty)
    if sugg.isEmpty && !suggestions_text.isEmpty then
      [(⟨suggestions_text⟩ : String)]
    else sugg.map (fun l => (⟨l⟩ : String))

/-- `parse_judge_response(response)`. -/
def parse_judge_response (response : String) : JudgeFeedback :=
  let text := response.data
  { overall_score := find_score "overall".data (some "score".data) 5 text
    age_appropriateness := find_score "age".data (some "appropriateness".data) 5 text
    engagement := find_score "engagement".data none 5 text
    moral_clarity := find_score "moral".data (some "clarity".data) 5 text
    story_structure := find_score "story".data (some "structure".data) 5 text
    language_quality := find_score "language".data (some "quality".data) 5 text
    feedback := ⟨pyStripList ((scanFirst feedbackAt text).getD [])⟩
    suggestions := parseSuggestions text }


/-! ## The analyzer-response extractor (`parse_analyzer_response`) -/

/-- Python `dict` assignment on an insertion-ordered association list:
overwrite in place when the key exists, append otherwise. -/
def dictSet (d : List (String × String)) (k v : String) : List (String × String) :=
  if d.any (fun p => p.1 = k) then d.map (fun p => if p.1 = k then (k, v) else p)
  else d ++ [(k, v)]

/-- `parse_analyzer_response(response)`: the labelled lines of the stripped
response, keys stripped and upper-cased, values stripped. -/
def parse_analyzer_response (response : String) : List (String × String) :=
  let lines := splitlinesPy (pyStripList response.data)
  lines.foldl
    (fun parsed line =>
      if line.any (fun c => c = ':') then
        let key := line.takeWhile (fun c => c ≠ ':')
        let value := (line.dropWhile (fun c => c ≠ ':')).tail
        dictSet parsed ⟨(pyStripList key).map asciiUpper⟩ ⟨pyStripList value⟩
      else parsed)
    []

/-! ## The story-shape extractor (`parse_story_response`) -/

/-- `(?:TITLE|Title)\s*:?\s*(.*?)(?=\n|$)` (IGNORECASE) at this position:
the matched span (`group(0)`) and the capture (`group(1)`, the text up to
the next newline or the end). -/
def titleAt (l : List Char) : Option (List Char × List Char) :=
  match matchCI "title".data l with
  | some r =>
    let r2 := dropLabelSep r
    let cap := r2.takeWhile (fun c => c ≠ '\n')
    some (l.take (l.length - r2.length + cap.length), cap)
  | none => none

/-- `(?:MORAL|Moral)\s*:?\s*(.*?)$` (IGNORECASE, DOTALL) at this position:
the matched span (`group(0)`) and the capture (`group(1)`). -/
def moralAt (l : List Char) : Option (List Char × List Char) :=
  match matchCI "moral".data l with
  | some r =>
    let r2 := dropLabelSep r
    let cap := captureToDollar r2
    some (l.take (l.length - r2.length + cap.length), cap)
  | none => none

/-- The lookahead `(?=(?:MORAL|Moral)\s*:)` (IGNORECASE). -/
def moralColonStop (t : List Char) : Bool :=
  match matchCI "moral".data t with
  | some r => (dropSpaces r).head? = some ':'
  | none => false

/-- `(?:STORY|Story)\s*:?\s*([\s\S]*?)(?=(?:MORAL|Moral)\s*:|$)`
(IGNORECASE) at this position: the capture. -/
def storyAt (l : List Char) : Option (List Char) :=
  match matchCI "story".data l with
  | some r =>
    some (captureLazy (fun t => moralColonStop t || dollarStop t)
      (dropLabelSep r))
  | none => none

/-- `re.sub(r"^(?:STORY|Story)\s*:?\s*", "", content, flags=IGNORECASE)`:
the anchored marker is removed at most once, at the very start. -/
def removeStoryMarker (l : List Char) : List Char :=
  match matchCI "story".data l with
  | some r => dropLabelSep r
  | none => l

/-- `parse_story_response(response, fallback_title)`, returning
`(title, content, moral)`. -/
def parse_story_response (response : String) (fallback_title : String) :
    String × String × String :=
  let text := response.data
  let title_match := scanFirst titleAt text
  let moral_match := scanFirst moralAt text
  let story_match := scanFirst storyAt text
  let title : List Char :=
    match title_match with
    | some (_, cap) =>
      if (pyStripList cap).isEmpty then fallback_title.data else pyStripList cap
    | none => fallback_title.data
  let moral : List Char :=
    match moral_match with
    | some (_, cap) => pyStripList cap
    | none => []
  let content0 : List Char :=
    match story_match with
    | some cap =>
      if !(pyStripList cap).isEmpty then pyStripList cap
      else fallbackContent text title_match moral_match
    | none => fallbackContent text title_match moral_match
  let content := pyStripList (removeStoryMarker content0)
  ((⟨title⟩ : String), (⟨content⟩ : String), (⟨moral⟩ : String))
where
  /-- the whole-text fallback: remove the identified TITLE and MORAL spans
  from the text, then strip. -/
  fallbackContent (text : List Char) (title_match moral_match :
      Option (List Char × List Char)) : List Char :=
    let c1 := match title_match with
      | some (g0, _) => removeAll g0 text
      | none => text
    let c2 := match moral_match with
      | some (g0, _) => removeAll g0 c1
      | none => c1
    pyStripList c2

/-! ## The choice-proposal extractor (`parse_choice_proposal`) -/

/-- `CHOICE_n\s*:\s*(.+)` (IGNORECASE) at this position (the colon is
mandatory here).  When everything after the colon is whitespace running to
the end of the input, the greedy `\s*` backtracks one character at a time
and the capture, if any, is the last non-newline whitespace character. -/
def choiceAt (lbl : List Char) (l : List Char) : Option (List Char) :=
  match matchCI lbl l with
  | some r =>
    match dropSpaces r with
    | ':' :: r' =>
      match dropSpaces r' with
      | [] =>
        match r'.reverse.dropWhile (fun c => c = '\n') with
        | [] => none
        | c :: _ => some [c]
      | r2 => some (r2.takeWhile (fun c => c ≠ '\n'))
    | _ => none
  | none => none

/-- `re.match(r"^\s*[12][\)\.]\s*", ln)`: the remainder after the numbered
marker, when the line starts with one. -/
def matchNumberMarker (l : List Char) : Option (List Char) :=
  match dropSpaces l with
  | c :: d :: rest =>
    if (c = '1' || c = '2') && (d = ')' || d = '.') then some (dropSpaces rest)
    else none
  | _ => none

/-- The numbered-lines fallback of `parse_choice_proposal`: strip and keep
the non-empty lines, keep those starting with a numbered marker, and strip
the marker off each. -/
def numberedOptions (t : List Char) : List (List Char) :=
  let lines := ((splitlinesPy t).map pyStripList).filter (fun l => !l.isEmpty)
  (lines.filterMap matchNumberMarker).map pyStripList

/-- The first fixed fallback option of `parse_choice_proposal`. -/
def defaultChoice1 : String := "Follow a trail of twinkling lights to see where it leads."

/-- The second fixed fallback option of `parse_choice_proposal`. -/
def defaultChoice2 : String := "Ask a friendly neighbor for help and a cozy hint."

/-- `parse_choice_proposal(text)`: two labelled options, falling back to
numbered lines, falling back to fixed defaults. -/
def parse_choice_proposal (text : String) : String × String :=
  let t := text.data
  let c1 := pyStripList ((scanFirst (choiceAt "choice_1".data) t).getD [])
  let c2 := pyStripList ((scanFirst (choiceAt "choice_2".data) t).getD [])
  let p :=
    if c1.isEmpty || c2.isEmpty then
      match numberedOptions t with
      | a :: b :: _ => (a, b)
      | _ => (c1, c2)
    else (c1, c2)
  let d1 := if p.1.isEmpty then defaultChoice1.data else p.1
  let d2 := if p.2.isEmpty then defaultChoice2.data else p.2
  ((⟨d1⟩ : String), (⟨d2⟩ : String))

/-! ## The continuation extractor (`parse_continuation_response`) -/

/-- `(?:CONTINUATION)\s*:?(.*?)(?=(?:MORAL)\s*:|$)` (IGNORECASE, DOTALL) at
this position — note there is no `\s*` after the optional colon, so the
capture keeps any following whitespace (stripped later). -/
def continuationAt (l : List Char) : Option (List Char) :=
  match matchCI "continuation".data l with
  | some r =>
    let r2 := match dropSpaces r with
      | ':' :: r' => r'
      | r1 => r1
    some (captureLazy (fun t => moralColonStop t || dollarStop t) r2)
  | none => none

/-- `(?:MORAL)\s*:?(.*)$` (IGNORECASE, DOTALL) at this position: the greedy
capture runs to the very end of the input. -/
def moralGreedyAt (l : List Char) : Option (List Char) :=
  match matchCI "moral".data l with
  | some r =>
    some (match dropSpaces r with
      | ':' :: r' => r'
      | r1 => r1)
  | none => none

/-- `re.sub(r"^CONTINUATION\s*:?", "", s, flags=IGNORECASE)`: the anchored
marker is removed at most once, at the very start. -/
def removeContinuationMarker (l : List Char) : List Char :=
  match matchCI "continuation".data l with
  | some r =>
    match dropSpaces r with
    | ':' :: r' => r'
    | r1 => r1
  | none => l

/-- `parse_continuation_response(text)`, returning
`(continuation_text, moral_or_empty)`. -/
def parse_continuation_response (text : String) : String × String :=
  let t := text.data
  let cont_match := scanFirst continuationAt t
  let moral_match := scanFirst moralGreedyAt t
  let continuation0 : List Char :=
    match cont_match with
    | some cap => if !(pyStripList cap).isEmpty then pyStripList cap else pyStripList t
    | none => pyStripList t
  let continuation := pyStripList (removeContinuationMarker continuation0)
  let moral : List Char :=
    match moral_match with
    | some cap => pyStripList cap
    | none => []
  ((⟨continuation⟩ : String), (⟨moral⟩ : String))


/-! ## The resilient call gateway (`call_model`)

The remote service is modelled as an oracle giving the outcome of each
attempt (`attempt` counts from 1, as in the source).  The loop makes up to
`API_MAX_RETRIES` attempts, sleeping `API_RETRY_BACKOFF_SECONDS * attempt`
after each failed non-final attempt, and raises a `RuntimeError` carrying
the last underlying error once all attempts failed. -/

/-- `API_MAX_RETRIES` from the source. -/
def API_MAX_RETRIES : Nat := 3

/-- `API_RETRY_BACKOFF_SECONDS` from the source (`1.5`). -/
def API_RETRY_BACKOFF_SECONDS : ℚ := 3 / 2

/-- The outcome of one remote attempt: a response whose `content` may be
`None` (returned as `""`), or a raised exception. -/
inductive RemoteOutcome where
  | success (content : Option String)
  | failure (err : String)
deriving Repr, DecidableEq

/-- The result of `call_model`: the returned text, or the `RuntimeError`
raised after exhausting all retries (carrying the last underlying error). -/
inductive CallResult where
  | ok (content : String)
  | exhausted (last_err : String)
deriving Repr, DecidableEq

/-- The retry loop of `call_model` from attempt number `attempt`, returning
the result, the number of the last attempt made, and the list of backoff
sleeps in order. -/
def callModelAux (remote : Nat → RemoteOutcome) (attempt : Nat) :
    CallResult × Nat × List ℚ :=
  match remote attempt with
  | .success c => (.ok (c.getD ""), attempt, [])
  | .failure e =>
    if attempt < API_MAX_RETRIES then
      let r := callModelAux remote (attempt + 1)
      (r.1, r.2.1, API_RETRY_BACKOFF_SECONDS * (attempt : ℚ) :: r.2.2)
    else (.exhausted e, attempt, [])
  termination_by API_MAX_RETRIES - attempt

/-- `call_model`, starting at attempt 1. -/
def call_model (remote : Nat → RemoteOutcome) : CallResult × Nat × List ℚ :=
  callModelAux remote 1

/-! ## The Draft-Judge-Refine loop (`generate_and_refine_story`)

The two generation primitives used inside the loop (`judge_story` followed
by `parse_judge_response`, and `refine_story` followed by
`parse_story_response`) are modelled as oracles producing arbitrary records,
so every theorem below holds for every possible remote behaviour. -/

/-- `MAX_REFINEMENT_ITERATIONS` from the source. -/
def MAX_REFINEMENT_ITERATIONS : Nat := 5

/-- `JUDGE_THRESHOLD` from the source. -/
def JUDGE_THRESHOLD : Int := 7

/-- The generation primitives the loop calls: `judge_story(story,
round_num, history)` and `refine_story(story, history)`. -/
structure LoopOracle where
  judge : Story → Nat → List JudgeFeedback → JudgeFeedback
  refine : Story → List JudgeFeedback → Story

/-- The `for iteration in range(MAX_REFINEMENT_ITERATIONS)` loop of
`generate_and_refine_story`: judge, append to history, stop at the
threshold, refine unless this was the last iteration.  The third component
is a ghost trace accumulating each story version at the moment it is
judged (the initial draft plus every refinement, in round order). -/
def refineLoop (o : LoopOracle) (iteration : Nat) (story : Story)
    (history : List JudgeFeedback) (trace : List Story) :
    Story × List JudgeFeedback × List Story :=
  if iteration < MAX_REFINEMENT_ITERATIONS then
    let feedback := o.judge story (iteration + 1) history
    let history' := history ++ [feedback]
    let trace' := trace ++ [story]
    if feedback.overall_score ≥ JUDGE_THRESHOLD then (story, history', trace')
    else if iteration < MAX_REFINEMENT_ITERATIONS - 1 then
      refineLoop o (iteration + 1) (o.refine story history') history' trace'
    else (story, history', trace')
  else (story, history, trace)
  termination_by MAX_REFINEMENT_ITERATIONS - iteration

/-- `generate_and_refine_story`, given the initial draft produced by
`generate_story`: the final story, the feedback history, and the ghost
trace of judged story versions. -/
def generate_and_refine_story (o : LoopOracle) (story0 : Story) :
    Story × List JudgeFeedback × List Story :=
  refineLoop o 0 story0 [] []

/-! ## The interactive continuation engine (`run_interactive_choice_mode`) -/

/-- `CHOICE_MODE_MAX_STEPS` from the source. -/
def CHOICE_MODE_MAX_STEPS : Nat := 3

/-- The user's (first valid) input at a step of the interactive loop. -/
inductive UserPick where
  | one | two | quit
deriving Repr, DecidableEq

/-- The primitives the engine calls: `propose_next_choices(story, step,
total)`, the user's pick at each step, and `generate_continuation(story,
chosen, step, total)` returning `(continuation_text, moral_or_empty)`. -/
structure ChoiceOracle where
  propose_next_choices : Story → Nat → Nat → String × String
  pick : Nat → UserPick
  generate_continuation : Story → String → Nat → Nat → String × String

/-- One committed continuation step of the engine: choose an option,
generate the continuation, append it to the story body after a paragraph
break, replace the moral if a non-empty one was produced, and increment the
version.  Returns the new story together with the raw `maybe_moral`. -/
def choiceCommit (o : ChoiceOracle) (total_steps step : Nat) (p : UserPick)
    (current : Story) : Story × String :=
  let choices := o.propose_next_choices current step total_steps
  let chosen := if p = .one then choices.1 else choices.2
  let cm := o.generate_continuation current chosen step total_steps
  let new_content := pyStrip (pyRstrip current.content ++ "\n\n" ++ pyStrip cm.1)
  let new_moral := if pyStrip cm.2 ≠ "" then pyStrip cm.2 else current.moral
  (⟨current.title, new_content, new_moral, current.version + 1⟩, cm.2)

/-- The `for step in range(1, total_steps + 1)` loop of
`run_interactive_choice_mode`: a `quit` pick returns the story committed so
far; otherwise the step is committed, and a non-empty (stripped) moral
terminates the engine early. -/
def runChoiceSteps (o : ChoiceOracle) (total_steps step : Nat)
    (current : Story) : Story :=
  if step ≤ total_steps then
    match o.pick step with
    | .quit => current
    | p =>
      let r := choiceCommit o total_steps step p current
      if pyStrip r.2 ≠ "" then r.1
      else runChoiceSteps o total_steps (step + 1) r.1
  else current
  termination_by total_steps + 1 - step

/-- `run_interactive_choice_mode(story, request, total_steps)`. -/
def run_interactive_choice_mode (o : ChoiceOracle) (story : Story)
    (total_steps : Nat) : Story :=
  runChoiceSteps o total_steps 1 story


/-! ## Sample oracles used by concrete witnesses -/

/-- A sample behaviour of the generation primitives: the judge awards the
threshold score exactly in round 2, and refinement bumps the version. -/
def sampleLoopOracle : LoopOracle :=
  ⟨fun _ r _ => ⟨if r = 2 then 7 else 5, 5, 5, 5, 5, 5, "", []⟩,
   fun st _ => ⟨st.title, st.content, st.moral, st.version + 1⟩⟩

/-- A sample initial draft. -/
def sampleStory : Story := ⟨"T", "B", "M", 1⟩

/-- A sample behaviour of the continuation primitives: a moral is emitted
exactly by step-2 continuations. -/
def sampleChoiceOracle : ChoiceOracle :=
  ⟨fun _ _ _ => ("L", "R"),
   fun _ => .one,
   fun _ _ step _ => if step = 2 then ("beat2", "m") else ("beat1", "")⟩

/-- A sample behaviour whose continuations are empty. -/
def sampleEmptyBeatOracle : ChoiceOracle :=
  ⟨fun _ _ _ => ("L", "R"), fun _ => .one, fun _ _ _ _ => ("", "")⟩

/-- A sample behaviour with a fixed non-empty beat and a padded moral. -/
def sampleBeatOracle : ChoiceOracle :=
  ⟨fun _ _ _ => ("L", "R"), fun _ => .one, fun _ _ _ _ => ("beat", " m ")⟩

/-! # Theorems -/

/-! ## General helper lemmas -/

theorem mk_ne_empty {l : List Char} (h : l ≠ []) : (⟨l⟩ : String) ≠ "" := by
  intro hc
  apply h
  simpa using congrArg String.data hc

theorem parse_judge_response_fields (s : String) :
    parse_judge_response s =
      ⟨find_score "overall".data (some "score".data) 5 s.data,
       find_score "age".data (some "appropriateness".data) 5 s.data,
       find_score "engagement".data none 5 s.data,
       find_score "moral".data (some "clarity".data) 5 s.data,
       find_score "story".data (some "structure".data) 5 s.data,
       find_score "language".data (some "quality".data) 5 s.data,
       ⟨pyStripList ((scanFirst feedbackAt s.data).getD [])⟩,
       parseSuggestions s.data⟩ := rfl

theorem find_score_bounds (w1 : List Char) (w2 : Option (List Char)) (l : List Char) :
    1 ≤ find_score w1 w2 5 l ∧ find_score w1 w2 5 l ≤ 10 := by
  unfold find_score
  cases h : findScoreDigits w1 w2 l with
  | none => norm_num
  | some ds =>
    simp only [clamp_int]
    exact ⟨le_max_left 1 _, max_le (by norm_num) (min_le_left 10 _)⟩

theorem ite_default_ne_empty (x dl : List Char) (hd : dl ≠ []) :
    (⟨if x.isEmpty then dl else x⟩ : String) ≠ "" := by
  split
  · exact mk_ne_empty hd
  · next h => exact mk_ne_empty (by simpa using h)

theorem parse_choice_nonempty (s : String) :
    (parse_choice_proposal s).1 ≠ "" ∧ (parse_choice_proposal s).2 ≠ "" := by
  unfold parse_choice_proposal
  dsimp only
  exact ⟨ite_default_ne_empty _ _ (by decide), ite_default_ne_empty _ _ (by decide)⟩

theorem parse_story_title_nonempty (s fb : String) (h : fb ≠ "") :
    (parse_story_response s fb).1 ≠ "" := by
  unfold parse_story_response
  dsimp only
  cases hm : scanFirst titleAt s.data with
  | none => simpa using h
  | some g =>
    cases g with
    | mk g0 cap =>
      dsimp only
      split
      · simpa using h
      · next hne => exact mk_ne_empty (by simpa using hne)

/-! ## C4: totality of the extractors -/

/-- **C4**: every extractor is total and structurally valid on every input:
the six judge scores always lie in [1,10]; the choice extractor always
returns two non-empty options; the story extractor returns a non-empty
title whenever the caller-supplied fallback is non-empty; and on the empty
string the judge extractor yields all six scores 5 with empty feedback and
an empty suggestions list, the analyzer yields an empty record, and the
continuation extractor yields empty continuation and moral. -/
theorem extractors_total (s : String) :
    (1 ≤ (parse_judge_response s).overall_score ∧
      (parse_judge_response s).overall_score ≤ 10) ∧
    (1 ≤ (parse_judge_response s).age_appropriateness ∧
      (parse_judge_response s).age_appropriateness ≤ 10) ∧
    (1 ≤ (parse_judge_response s).engagement ∧
      (parse_judge_response s).engagement ≤ 10) ∧
    (1 ≤ (parse_judge_response s).moral_clarity ∧
      (parse_judge_response s).moral_clarity ≤ 10) ∧
    (1 ≤ (parse_judge_response s).story_structure ∧
      (parse_judge_response s).story_structure ≤ 10) ∧
    (1 ≤ (parse_judge_response s).language_quality ∧
      (parse_judge_response s).language_quality ≤ 10) ∧
    (parse_choice_proposal s).1 ≠ "" ∧
    (parse_choice_proposal s).2 ≠ "" ∧
    (∀ fb : String, fb ≠ "" → (parse_story_response s fb).1 ≠ "") ∧
    parse_judge_response "" = ⟨5, 5, 5, 5, 5, 5, "", []⟩ ∧
    parse_analyzer_response "" = [] ∧
    parse_continuation_response "" = ("", "") := by
  refine ⟨?_, ?_, ?_, ?_, ?_, ?_, (parse_choice_nonempty s).1,
    (parse_choice_nonempty s).2, fun fb h => parse_story_title_nonempty s fb h,
    by decide, by decide, by decide⟩
  all_goals rw [parse_judge_response_fields]
  all_goals exact find_score_bounds _ _ _

/-- Witness for **C4** at a concrete fallback title. -/
theorem extractors_total_witness :
    ("Untitled Story" : String) ≠ "" ∧
      (parse_story_response "" "Untitled Story").1 ≠ "" := by
  refine ⟨by decide, ?_⟩
  exact (extractors_total "").2.2.2.2.2.2.2.2.1 "Untitled Story" (by decide)

/-! ## C5: clamping of parsed score values -/

theorem find_score_of_digits {w1 : List Char} {w2 : Option (List Char)}
    {l : List Char} {ds : List Char} (h : findScoreDigits w1 w2 l = some ds)
    (dflt : Int) :
    find_score w1 w2 dflt l =
      clamp_int (some ((digitsToNat ds : Nat) : Int)) 1 10 dflt := by
  unfold find_score
  rw [h]

/-- **C5**: whenever the first score match for a label captures the digits
`"12"`, the corresponding parsed score is clamped to 10, and whenever it
captures `"0"`, it is clamped to 1 — for each of the six score labels. -/
theorem judge_scores_clamped (s : String) :
    (findScoreDigits "overall".data (some "score".data) s.data = some "12".data →
      (parse_judge_response s).overall_score = 10) ∧
    (findScoreDigits "overall".data (some "score".data) s.data = some "0".data →
      (parse_judge_response s).overall_score = 1) ∧
    (findScoreDigits "age".data (some "appropriateness".data) s.data = some "12".data →
      (parse_judge_response s).age_appropriateness = 10) ∧
    (findScoreDigits "age".data (some "appropriateness".data) s.data = some "0".data →
      (parse_judge_response s).age_appropriateness = 1) ∧
    (findScoreDigits "engagement".data none s.data = some "12".data →
      (parse_judge_response s).engagement = 10) ∧
    (findScoreDigits "engagement".data none s.data = some "0".data →
      (parse_judge_response s).engagement = 1) ∧
    (findScoreDigits "moral".data (some "clarity".data) s.data = some "12".data →
      (parse_judge_response s).moral_clarity = 10) ∧
    (findScoreDigits "moral".data (some "clarity".data) s.data = some "0".data →
      (parse_judge_response s).moral_clarity = 1) ∧
    (findScoreDigits "story".data (some "structure".data) s.data = some "12".data →
      (parse_judge_response s).story_structure = 10) ∧
    (findScoreDigits "story".data (some "structure".data) s.data = some "0".data →
      (parse_judge_response s).story_structure = 1) ∧
    (findScoreDigits "language".data (some "quality".data) s.data = some "12".data →
      (parse_judge_response s).language_quality = 10) ∧
    (findScoreDigits "language".data (some "quality".data) s.data = some "0".data →
      (parse_judge_response s).language_quality = 1) := by
  refine ⟨?_, ?_, ?_, ?_, ?_, ?_, ?_, ?_, ?_, ?_, ?_, ?_⟩
  all_goals intro h
  all_goals rw [parse_judge_response_fields]
  all_goals dsimp only
  all_goals rw [find_score_of_digits h]
  all_goals decide

/-- Witness for **C5**: a response carrying `12` for every label clamps all
six scores to 10, and one carrying `0` clamps them to 1. -/
theorem judge_scores_clamped_witness :
    ((parse_judge_response "OVERALL_SCORE: 12\nAGE_APPROPRIATENESS: 12\nENGAGEMENT: 12\nMORAL_CLARITY: 12\nSTORY_STRUCTURE: 12\nLANGUAGE_QUALITY: 12").overall_score = 10 ∧
     (parse_judge_response "OVERALL_SCORE: 12\nAGE_APPROPRIATENESS: 12\nENGAGEMENT: 12\nMORAL_CLARITY: 12\nSTORY_STRUCTURE: 12\nLANGUAGE_QUALITY: 12").age_appropriateness = 10 ∧
     (parse_judge_response "OVERALL_SCORE: 12\nAGE_APPROPRIATENESS: 12\nENGAGEMENT: 12\nMORAL_CLARITY: 12\nSTORY_STRUCTURE: 12\nLANGUAGE_QUALITY: 12").engagement = 10 ∧
     (parse_judge_response "OVERALL_SCORE: 12\nAGE_APPROPRIATENESS: 12\nENGAGEMENT: 12\nMORAL_CLARITY: 12\nSTORY_STRUCTURE: 12\nLANGUAGE_QUALITY: 12").moral_clarity = 10 ∧
     (parse_judge_response "OVERALL_SCORE: 12\nAGE_APPROPRIATENESS: 12\nENGAGEMENT: 12\nMORAL_CLARITY: 12\nSTORY_STRUCTURE: 12\nLANGUAGE_QUALITY: 12").story_structure = 10 ∧
     (parse_judge_response "OVERALL_SCORE: 12\nAGE_APPROPRIATENESS: 12\nENGAGEMENT: 12\nMORAL_CLARITY: 12\nSTORY_STRUCTURE: 12\nLANGUAGE_QUALITY: 12").language_quality = 10) ∧
    ((parse_judge_response "OVERALL_SCORE: 0\nAGE_APPROPRIATENESS: 0\nENGAGEMENT: 0\nMORAL_CLARITY: 0\nSTORY_STRUCTURE: 0\nLANGUAGE_QUALITY: 0").overall_score = 1 ∧
     (parse_judge_response "OVERALL_SCORE: 0\nAGE_APPROPRIATENESS: 0\nENGAGEMENT: 0\nMORAL_CLARITY: 0\nSTORY_STRUCTURE: 0\nLANGUAGE_QUALITY: 0").age_appropriateness = 1 ∧
     (parse_judge_response "OVERALL_SCORE: 0\nAGE_APPROPRIATENESS: 0\nENGAGEMENT: 0\nMORAL_CLARITY: 0\nSTORY_STRUCTURE: 0\nLANGUAGE_QUALITY: 0").engagement = 1 ∧
     (parse_judge_response "OVERALL_SCORE: 0\nAGE_APPROPRIATENESS: 0\nENGAGEMENT: 0\nMORAL_CLARITY: 0\nSTORY_STRUCTURE: 0\nLANGUAGE_QUALITY: 0").moral_clarity = 1 ∧
     (parse_judge_response "OVERALL_SCORE: 0\nAGE_APPROPRIATENESS: 0\nENGAGEMENT: 0\nMORAL_CLARITY: 0\nSTORY_STRUCTURE: 0\nLANGUAGE_QUALITY: 0").story_structure = 1 ∧
     (parse_judge_response "OVERALL_SCORE: 0\nAGE_APPROPRIATENESS: 0\nENGAGEMENT: 0\nMORAL_CLARITY: 0\nSTORY_STRUCTURE: 0\nLANGUAGE_QUALITY: 0").language_quality = 1) := by
  constructor
  · exact ⟨(judge_scores_clamped "OVERALL_SCORE: 12\nAGE_APPROPRIATENESS: 12\nENGAGEMENT: 12\nMORAL_CLARITY: 12\nSTORY_STRUCTURE: 12\nLANGUAGE_QUALITY: 12").1 (by decide),
      (judge_scores_clamped "OVERALL_SCORE: 12\nAGE_APPROPRIATENESS: 12\nENGAGEMENT: 12\nMORAL_CLARITY: 12\nSTORY_STRUCTURE: 12\nLANGUAGE_QUALITY: 12").2.2.1 (by decide),
      (judge_scores_clamped "OVERALL_SCORE: 12\nAGE_APPROPRIATENESS: 12\nENGAGEMENT: 12\nMORAL_CLARITY: 12\nSTORY_STRUCTURE: 12\nLANGUAGE_QUALITY: 12").2.2.2.2.1 (by decide),
      (judge_scores_clamped "OVERALL_SCORE: 12\nAGE_APPROPRIATENESS: 12\nENGAGEMENT: 12\nMORAL_CLARITY: 12\nSTORY_STRUCTURE: 12\nLANGUAGE_QUALITY: 12").2.2.2.2.2.2.1 (by decide),
      (judge_scores_clamped "OVERALL_SCORE: 12\nAGE_APPROPRIATENESS: 12\nENGAGEMENT: 12\nMORAL_CLARITY: 12\nSTORY_STRUCTURE: 12\nLANGUAGE_QUALITY: 12").2.2.2.2.2.2.2.2.1 (by decide),
      (judge_scores_clamped "OVERALL_SCORE: 12\nAGE_APPROPRIATENESS: 12\nENGAGEMENT: 12\nMORAL_CLARITY: 12\nSTORY_STRUCTURE: 12\nLANGUAGE_QUALITY: 12").2.2.2.2.2.2.2.2.2.2.1 (by decide)⟩
  · exact ⟨(judge_scores_clamped "OVERALL_SCORE: 0\nAGE_APPROPRIATENESS: 0\nENGAGEMENT: 0\nMORAL_CLARITY: 0\nSTORY_STRUCTURE: 0\nLANGUAGE_QUALITY: 0").2.1 (by decide),
      (judge_scores_clamped "OVERALL_SCORE: 0\nAGE_APPROPRIATENESS: 0\nENGAGEMENT: 0\nMORAL_CLARITY: 0\nSTORY_STRUCTURE: 0\nLANGUAGE_QUALITY: 0").2.2.2.1 (by decide),
      (judge_scores_clamped "OVERALL_SCORE: 0\nAGE_APPROPRIATENESS: 0\nENGAGEMENT: 0\nMORAL_CLARITY: 0\nSTORY_STRUCTURE: 0\nLANGUAGE_QUALITY: 0").2.2.2.2.2.1 (by decide),
      (judge_scores_clamped "OVERALL_SCORE: 0\nAGE_APPROPRIATENESS: 0\nENGAGEMENT: 0\nMORAL_CLARITY: 0\nSTORY_STRUCTURE: 0\nLANGUAGE_QUALITY: 0").2.2.2.2.2.2.2.1 (by decide),
      (judge_scores_clamped "OVERALL_SCORE: 0\nAGE_APPROPRIATENESS: 0\nENGAGEMENT: 0\nMORAL_CLARITY: 0\nSTORY_STRUCTURE: 0\nLANGUAGE_QUALITY: 0").2.2.2.2.2.2.2.2.2.1 (by decide),
      (judge_scores_clamped "OVERALL_SCORE: 0\nAGE_APPROPRIATENESS: 0\nENGAGEMENT: 0\nMORAL_CLARITY: 0\nSTORY_STRUCTURE: 0\nLANGUAGE_QUALITY: 0").2.2.2.2.2.2.2.2.2.2.2 (by decide)⟩


/-! ## C6: the choice proposal always yields two usable options -/

/-- Counterexample for **C6** as stated: when both labels carry the same
text, the two returned options are equal, not mutually distinct. -/
theorem choice_distinctness_cex :
    (parse_choice_proposal "CHOICE_1: a\nCHOICE_2: a").1 =
      (parse_choice_proposal "CHOICE_1: a\nCHOICE_2: a").2 ∧
    (parse_choice_proposal "CHOICE_1: a\nCHOICE_2: a").1 = "a" := by decide

/-- **C6 (amended)**: for every input text `parse_choice_proposal` returns
exactly two non-empty option strings (they need not be distinct); when no
`CHOICE_1`/`CHOICE_2` label matches and fewer than two numbered lines are
recognized, the two fixed pre-authored default options — which are distinct
— are returned. -/
theorem choice_two_options (s : String) :
    (parse_choice_proposal s).1 ≠ "" ∧
    (parse_choice_proposal s).2 ≠ "" ∧
    defaultChoice1 ≠ defaultChoice2 ∧
    (scanFirst (choiceAt "choice_1".data) s.data = none →
      scanFirst (choiceAt "choice_2".data) s.data = none →
      (numberedOptions s.data).length < 2 →
      parse_choice_proposal s = (defaultChoice1, defaultChoice2)) := by
  refine ⟨(parse_choice_nonempty s).1, (parse_choice_nonempty s).2, by decide,
    fun h1 h2 h3 => ?_⟩
  unfold parse_choice_proposal
  dsimp only
  rw [h1, h2]
  rcases hn : numberedOptions s.data with _ | ⟨a, _ | ⟨b, rest⟩⟩
  · simp only [hn]
    decide
  · simp only [hn]
    decide
  · rw [hn] at h3
    simp at h3
    omega

/-- Witness for **C6 (amended)**: on the empty input both label searches
fail, there are no numbered lines, and the two defaults are returned. -/
theorem choice_two_options_witness :
    parse_choice_proposal "" = (defaultChoice1, defaultChoice2) :=
  (choice_two_options "").2.2.2 (by decide) (by decide) (by decide)

/-! ## C10: `normalize_tone` is total, case/whitespace-tolerant and
idempotent -/

/-- **C10**: `normalize_tone` always lands in the six allowed tones; inputs
whose stripped lower-casing is an allowed tone map to that lowercase form;
every other input maps to `"whimsical"`; and the function is idempotent. -/
theorem normalize_tone_spec (t : String) :
    normalize_tone t ∈ allowedTones ∧
    ((⟨(pyStripList t.data).map asciiLower⟩ : String) ∈ allowedTones →
      normalize_tone t = ⟨(pyStripList t.data).map asciiLower⟩) ∧
    ((⟨(pyStripList t.data).map asciiLower⟩ : String) ∉ allowedTones →
      normalize_tone t = "whimsical") ∧
    normalize_tone (normalize_tone t) = normalize_tone t := by
  have hfix : ∀ u : String, u ∈ allowedTones → normalize_tone u = u := by
    intro u hu
    fin_cases hu <;> decide
  by_cases h : (⟨(pyStripList t.data).map asciiLower⟩ : String) ∈ allowedTones
  · have he : normalize_tone t = ⟨(pyStripList t.data).map asciiLower⟩ := by
      unfold normalize_tone
      simp [h]
    refine ⟨he ▸ h, fun _ => he, fun hc => absurd h hc, ?_⟩
    rw [he, hfix _ h]
  · have he : normalize_tone t = "whimsical" := by
      unfold normalize_tone
      simp [h]
    refine ⟨he ▸ (by decide : ("whimsical" : String) ∈ allowedTones),
      fun hc => absurd hc h, fun _ => he, ?_⟩
    rw [he, hfix "whimsical" (by decide)]

/-- Witness for **C10**: a padded mixed-case allowed tone normalizes to its
lowercase form, and an unknown tone normalizes to `"whimsical"`. -/
theorem normalize_tone_spec_witness :
    normalize_tone "  Exciting " = "exciting" ∧
      normalize_tone "loud" = "whimsical" := by
  constructor
  · have h := (normalize_tone_spec "  Exciting ").2.1 (by decide)
    simpa using h
  · exact (normalize_tone_spec "loud").2.2.1 (by decide)


/-! ## C3: the gateway retry policy -/

/-- **C3**: `call_model` makes at most 3 attempts (and at least one); if
the first `k - 1` attempts fail and attempt `k` succeeds, its content is
returned immediately, after exactly `k` attempts, with backoff sleeps of
`base * 1, ..., base * (k-1)` between the consecutive failed attempts; if
all 3 attempts fail, a gateway-exhausted error carrying the last underlying
error is raised after sleeps `base * 1, base * 2`; and the sleeps are
always strictly increasing. -/
theorem call_model_retry_policy (remote : Nat → RemoteOutcome) :
    (1 ≤ (call_model remote).2.1 ∧ (call_model remote).2.1 ≤ API_MAX_RETRIES) ∧
    (∀ k c, 1 ≤ k → k ≤ API_MAX_RETRIES →
      (∀ j, 1 ≤ j → j < k → ∃ e, remote j = .failure e) →
      remote k = .success c →
      call_model remote =
        (.ok (c.getD ""), k,
          (List.range (k - 1)).map
            (fun i => API_RETRY_BACKOFF_SECONDS * ((i + 1 : Nat) : ℚ)))) ∧
    ((∀ j, 1 ≤ j → j ≤ API_MAX_RETRIES → ∃ e, remote j = .failure e) →
      ∃ e, remote API_MAX_RETRIES = .failure e ∧
        call_model remote =
          (.exhausted e, API_MAX_RETRIES,
            [API_RETRY_BACKOFF_SECONDS * (1 : ℚ),
             API_RETRY_BACKOFF_SECONDS * (2 : ℚ)])) ∧
    (call_model remote).2.2.Chain' (· < ·) := by
  rcases h1 : remote 1 with c1 | e1
  · have hc : call_model remote = (.ok (c1.getD ""), 1, []) := by
      unfold call_model callModelAux
      rw [h1]
    refine ⟨by rw [hc]; exact ⟨le_refl 1, by norm_num [API_MAX_RETRIES]⟩, ?_, ?_, ?_⟩
    · intro k c hk1 hk3 hfail hsucc
      rcases Nat.lt_or_ge 1 k with hk | hk
      · obtain ⟨e, he⟩ := hfail 1 (le_refl 1) hk
        rw [h1] at he
        exact absurd he (by simp)
      · have : k = 1 := le_antisymm hk hk1
        subst this
        rw [h1] at hsucc
        have : c1 = c := by simpa using hsucc
        subst this
        simpa using hc
    · intro hfail
      obtain ⟨e, he⟩ := hfail 1 (by norm_num) (by norm_num [API_MAX_RETRIES])
      rw [h1] at he
      exact absurd he (by simp)
    · rw [hc]
      simp
  · rcases h2 : remote 2 with c2 | e2
    · have hc : call_model remote =
          (.ok (c2.getD ""), 2, [API_RETRY_BACKOFF_SECONDS * (1 : ℚ)]) := by
        unfold call_model callModelAux
        rw [h1]
        norm_num [API_MAX_RETRIES]
        unfold callModelAux
        rw [h2]
        simp
      refine ⟨by rw [hc]; exact ⟨by norm_num, by norm_num [API_MAX_RETRIES]⟩,
        ?_, ?_, ?_⟩
      · intro k c hk1 hk3 hfail hsucc
        have hk : k = 1 ∨ k = 2 ∨ k = 3 := by
          norm_num [API_MAX_RETRIES] at hk3
          omega
        rcases hk with hk | hk | hk
        · subst hk
          rw [h1] at hsucc
          exact absurd hsucc (by simp)
        · subst hk
          rw [h2] at hsucc
          have : c2 = c := by simpa using hsucc
          subst this
          rw [hc]
          norm_num [List.range_succ]
        · subst hk
          obtain ⟨e, he⟩ := hfail 2 (by norm_num) (by norm_num)
          rw [h2] at he
          exact absurd he (by simp)
      · intro hfail
        obtain ⟨e, he⟩ := hfail 2 (by norm_num) (by norm_num [API_MAX_RETRIES])
        rw [h2] at he
        exact absurd he (by simp)
      · rw [hc]
        simp
    · rcases h3 : remote 3 with c3 | e3
      · have hc : call_model remote =
            (.ok (c3.getD ""), 3,
              [API_RETRY_BACKOFF_SECONDS * (1 : ℚ),
               API_RETRY_BACKOFF_SECONDS * (2 : ℚ)]) := by
          unfold call_model callModelAux
          rw [h1]
          norm_num [API_MAX_RETRIES]
          unfold callModelAux
          rw [h2]
          norm_num
          unfold callModelAux
          rw [h3]
          simp [API_MAX_RETRIES]
        refine ⟨by rw [hc]; exact ⟨by norm_num, by norm_num [API_MAX_RETRIES]⟩,
          ?_, ?_, ?_⟩
        · intro k c hk1 hk3 hfail hsucc
          have hk : k = 1 ∨ k = 2 ∨ k = 3 := by
            norm_num [API_MAX_RETRIES] at hk3
            omega
          rcases hk with hk | hk | hk
          · subst hk
            rw [h1] at hsucc
            exact absurd hsucc (by simp)
          · subst hk
            rw [h2] at hsucc
            exact absurd hsucc (by simp)
          · subst hk
            rw [h3] at hsucc
            have : c3 = c := by simpa using hsucc
            subst this
            rw [hc]
            norm_num [List.range_succ]
        · intro hfail
          obtain ⟨e, he⟩ := hfail 3 (by norm_num) (by norm_num [API_MAX_RETRIES])
          rw [h3] at he
          exact absurd he (by simp)
        · rw [hc]
          norm_num [API_RETRY_BACKOFF_SECONDS]
      · have hc : call_model remote =
            (.exhausted e3, 3,
              [API_RETRY_BACKOFF_SECONDS * (1 : ℚ),
               API_RETRY_BACKOFF_SECONDS * (2 : ℚ)]) := by
          unfold call_model callModelAux
          rw [h1]
          norm_num [API_MAX_RETRIES]
          unfold callModelAux
          rw [h2]
          norm_num
          unfold callModelAux
          rw [h3]
          simp [API_MAX_RETRIES]
        refine ⟨by rw [hc]; exact ⟨by norm_num, by norm_num [API_MAX_RETRIES]⟩,
          ?_, ?_, ?_⟩
        · intro k c hk1 hk3 hfail hsucc
          have hk : k = 1 ∨ k = 2 ∨ k = 3 := by
            norm_num [API_MAX_RETRIES] at hk3
            omega
          rcases hk with hk | hk | hk
          · subst hk
            rw [h1] at hsucc
            exact absurd hsucc (by simp)
          · subst hk
            rw [h2] at hsucc
            exact absurd hsucc (by simp)
          · subst hk
            rw [h3] at hsucc
            exact absurd hsucc (by simp)
        · intro hfail
          exact ⟨e3, h3, hc⟩
        · rw [hc]
          norm_num [API_RETRY_BACKOFF_SECONDS]

/-- Witness for **C3**: a service failing once then succeeding returns the
second attempt's content after one backoff sleep, and a service that always
fails exhausts the gateway with the last error after two sleeps. -/
theorem call_model_retry_policy_witness :
    (call_model (fun a => if a = 1 then .failure "boom" else .success (some "hi")) =
      (.ok "hi", 2,
        (List.range 1).map
          (fun i => API_RETRY_BACKOFF_SECONDS * ((i + 1 : Nat) : ℚ)))) ∧
    (∃ e, (fun _ : Nat => (.failure "down" : RemoteOutcome)) API_MAX_RETRIES = .failure e ∧
      call_model (fun _ => .failure "down") =
        (.exhausted e, API_MAX_RETRIES,
          [API_RETRY_BACKOFF_SECONDS * (1 : ℚ),
           API_RETRY_BACKOFF_SECONDS * (2 : ℚ)])) := by
  constructor
  · exact (call_model_retry_policy _).2.1 2 (some "hi") (by norm_num)
      (by norm_num [API_MAX_RETRIES])
      (by
        intro j hj1 hj2
        have : j = 1 := by omega
        subst this
        exact ⟨"boom", rfl⟩)
      (by norm_num)
  · exact (call_model_retry_policy _).2.2.1
      (fun j hj1 hj3 => ⟨"down", rfl⟩)


/-! ## List indexing helpers for the loop invariants -/

theorem getD_append_left {α : Type} :
    ∀ (l₁ l₂ : List α) (d : α) (k : Nat), k < l₁.length →
      (l₁ ++ l₂).getD k d = l₁.getD k d
  | [], _, _, k, h => by simp at h
  | a :: t, l₂, d, 0, _ => rfl
  | a :: t, l₂, d, k + 1, h => by
    simpa using getD_append_left t l₂ d k (by simp at h; omega)

theorem getD_snoc_length {α : Type} :
    ∀ (l : List α) (a d : α), (l ++ [a]).getD l.length d = a
  | [], a, d => rfl
  | b :: t, a, d => by
    simp only [List.cons_append, List.length_cons, List.getD_cons_succ]
    exact getD_snoc_length t a d

theorem take_append_le {α : Type} :
    ∀ (l₁ l₂ : List α) (k : Nat), k ≤ l₁.length →
      (l₁ ++ l₂).take k = l₁.take k
  | _, _, 0, _ => by simp
  | [], _, k + 1, h => by simp at h
  | a :: t, l₂, k + 1, h => by
    simpa using take_append_le t l₂ k (by simpa using h)

theorem take_append_exact {α : Type} (l₁ l₂ : List α) :
    (l₁ ++ l₂).take l₁.length = l₁ := by
  rw [take_append_le l₁ l₂ _ (le_refl _)]
  exact List.take_length l₁

theorem getD_take {α : Type} (d : α) :
    ∀ (l : List α) (n k : Nat), k < n → (l.take n).getD k d = l.getD k d
  | [], n, k, h => by simp
  | a :: t, n + 1, 0, h => rfl
  | a :: t, n + 1, k + 1, h => by
    simpa using getD_take d t n k (by omega)

/-! ## C1 and C2: the Draft-Judge-Refine loop invariants -/

/-- The complete invariant of `refineLoop`, proved by induction on the
remaining fuel `MAX_REFINEMENT_ITERATIONS - iteration`.  Starting from a
consistent intermediate state (history and trace of length `iteration`,
every earlier round below the threshold and produced by `o.judge` in round
order), the loop returns a history and trace of equal length in
`(iteration, MAX]`, extends both accumulators, judges the story passed in
as round `iteration + 1`, produces every later trace entry by `o.refine`,
keeps every non-final round below the threshold, ends below the ceiling
only at a round reaching the threshold, and returns the last judged
story. -/
theorem refineLoop_spec (o : LoopOracle) (dJ : JudgeFeedback) (dS : Story) :
    ∀ (fuel iteration : Nat) (story : Story) (history : List JudgeFeedback)
      (trace : List Story) (st : Story) (hist : List JudgeFeedback)
      (tr : List Story),
      refineLoop o iteration story history trace = (st, hist, tr) →
      MAX_REFINEMENT_ITERATIONS - iteration = fuel →
      iteration < MAX_REFINEMENT_ITERATIONS →
      history.length = iteration →
      trace.length = iteration →
      (∀ k, k < iteration →
        history.getD k dJ =
          o.judge (trace.getD k dS) (k + 1) (history.take k) ∧
        (history.getD k dJ).overall_score < JUDGE_THRESHOLD) →
      hist.length = tr.length ∧
      iteration < hist.length ∧
      hist.length ≤ MAX_REFINEMENT_ITERATIONS ∧
      hist.take iteration = history ∧
      tr.take iteration = trace ∧
      tr.getD iteration dS = story ∧
      (∀ k, k < hist.length →
        hist.getD k dJ = o.judge (tr.getD k dS) (k + 1) (hist.take k)) ∧
      (∀ k, iteration ≤ k → k + 1 < tr.length →
        tr.getD (k + 1) dS = o.refine (tr.getD k dS) (hist.take (k + 1))) ∧
      (∀ k, k + 1 < hist.length →
        (hist.getD k dJ).overall_score < JUDGE_THRESHOLD) ∧
      (hist.length < MAX_REFINEMENT_ITERATIONS →
        (hist.getD (hist.length - 1) dJ).overall_score ≥ JUDGE_THRESHOLD) ∧
      st = tr.getD (hist.length - 1) dS := by
  intro fuel
  induction fuel with
  | zero =>
    intro iteration story history trace st hist tr hres hfuel hlt
    omega
  | succ n ih =>
    intro iteration story history trace st hist tr hres hfuel hlt hlenh hlent hpre
    unfold refineLoop at hres
    rw [if_pos hlt] at hres
    dsimp only at hres
    have e1 : (history ++ [o.judge story (iteration + 1) history]).getD
        iteration dJ = o.judge story (iteration + 1) history := by
      rw [← hlenh]
      exact getD_snoc_length _ _ _
    have e2 : (trace ++ [story]).getD iteration dS = story := by
      rw [← hlent]
      exact getD_snoc_length _ _ _
    have e3 : (history ++ [o.judge story (iteration + 1) history]).take
        iteration = history := by
      rw [← hlenh]
      exact take_append_exact _ _
    have e4 : (trace ++ [story]).take iteration = trace := by
      rw [← hlent]
      exact take_append_exact _ _
    by_cases hscore :
        (o.judge story (iteration + 1) history).overall_score ≥ JUDGE_THRESHOLD
    · rw [if_pos hscore] at hres
      have h1 := congrArg Prod.fst hres
      have h2 := congrArg (fun x => x.2.1) hres
      have h3 := congrArg (fun x => x.2.2) hres
      dsimp only at h1 h2 h3
      subst h1 h2 h3
      have hlen1 : (history ++ [o.judge story (iteration + 1) history]).length =
          iteration + 1 := by simp [hlenh]
      refine ⟨by simp [hlenh, hlent], by omega, by omega, e3, e4, e2,
        ?_, ?_, ?_, ?_, ?_⟩
      · intro k hk
        rw [hlen1] at hk
        rcases Nat.lt_or_ge k iteration with hk' | hk'
        · rw [getD_append_left _ _ _ _ (by omega),
            getD_append_left _ _ _ _ (by omega),
            take_append_le _ _ _ (by omega)]
          exact (hpre k hk').1
        · have hke : k = iteration := by omega
          subst hke
          rw [e1, e2, e3]
      · intro k hk hk'
        simp [hlent] at hk'
        omega
      · intro k hk
        rw [hlen1] at hk
        rw [getD_append_left _ _ _ _ (by omega)]
        exact (hpre k (by omega)).2
      · intro _
        rw [hlen1, Nat.add_sub_cancel, e1]
        exact hscore
      · rw [hlen1, Nat.add_sub_cancel, e2]
    · rw [if_neg hscore] at hres
      by_cases hlast : iteration < MAX_REFINEMENT_ITERATIONS - 1
      · rw [if_pos hlast] at hres
        have hnew : ∀ k, k < iteration + 1 →
            (history ++ [o.judge story (iteration + 1) history]).getD k dJ =
              o.judge ((trace ++ [story]).getD k dS) (k + 1)
                ((history ++ [o.judge story (iteration + 1) history]).take k) ∧
            ((history ++ [o.judge story (iteration + 1) history]).getD k
                dJ).overall_score < JUDGE_THRESHOLD := by
          intro k hk
          rcases Nat.lt_or_ge k iteration with hk' | hk'
          · rw [getD_append_left _ _ _ _ (by omega),
              getD_append_left _ _ _ _ (by omega),
              take_append_le _ _ _ (by omega)]
            exact hpre k hk'
          · have hke : k = iteration := by omega
            subst hke
            rw [e1, e2, e3]
            exact ⟨rfl, by omega⟩
        obtain ⟨c1, c2, c3, c4, c5, c6, c7, c8, c9, c10, c11⟩ :=
          ih (iteration + 1)
            (o.refine story (history ++ [o.judge story (iteration + 1) history]))
            (history ++ [o.judge story (iteration + 1) history])
            (trace ++ [story]) st hist tr hres (by omega) (by omega)
            (by simp [hlenh]) (by simp [hlent]) hnew
        have ht1 : tr.getD iteration dS = story := by
          have hv : tr.getD iteration dS =
              (tr.take (iteration + 1)).getD iteration dS :=
            (getD_take dS tr (iteration + 1) iteration (by omega)).symm
          rw [hv, c5, e2]
        refine ⟨c1, by omega, c3, ?_, ?_, ht1, c7, ?_, c9, c10, c11⟩
        · have hm : hist.take iteration =
              (hist.take (iteration + 1)).take iteration := by
            rw [List.take_take]
            congr 1
            omega
          rw [hm, c4, e3]
        · have hm : tr.take iteration = (tr.take (iteration + 1)).take iteration := by
            rw [List.take_take]
            congr 1
            omega
          rw [hm, c5, e4]
        · intro k hk hk'
          rcases Nat.lt_or_ge k (iteration + 1) with hkx | hkx
          · have hke : k = iteration := by omega
            subst hke
            rw [ht1, c6, c4]
          · exact c8 k hkx hk'
      · rw [if_neg hlast] at hres
        have h1 := congrArg Prod.fst hres
        have h2 := congrArg (fun x => x.2.1) hres
        have h3 := congrArg (fun x => x.2.2) hres
        dsimp only at h1 h2 h3
        subst h1 h2 h3
        have hlen1 : (history ++ [o.judge story (iteration + 1) history]).length =
            iteration + 1 := by simp [hlenh]
        refine ⟨by simp [hlenh, hlent], by omega, by omega, e3, e4, e2,
          ?_, ?_, ?_, ?_, ?_⟩
        · intro k hk
          rw [hlen1] at hk
          rcases Nat.lt_or_ge k iteration with hk' | hk'
          · rw [getD_append_left _ _ _ _ (by omega),
              getD_append_left _ _ _ _ (by omega),
              take_append_le _ _ _ (by omega)]
            exact (hpre k hk').1
          · have hke : k = iteration := by omega
            subst hke
            rw [e1, e2, e3]
        · intro k hk hk'
          simp [hlent] at hk'
          omega
        · intro k hk
          rw [hlen1] at hk
          rw [getD_append_left _ _ _ _ (by omega)]
          exact (hpre k (by omega)).2
        · intro hcl
          rw [hlen1] at hcl
          omega
        · rw [hlen1, Nat.add_sub_cancel, e2]


/-- **C1**: for every behaviour of the generation primitives, the loop
produces at most `MAX_REFINEMENT_ITERATIONS = 5` story versions in total
(the ghost trace collects every version the loop ever holds, starting with
the initial draft, and each later entry is produced by one refinement), and
the feedback history contains exactly one entry per judging round actually
executed — entry `k` being the round-`k+1` judgement of version `k` given
the history of rounds `1..k` — appended in round order. -/
theorem loop_story_and_history_bounds (o : LoopOracle) (story0 : Story)
    (dJ : JudgeFeedback) (dS : Story) :
    (generate_and_refine_story o story0).2.2.length =
      (generate_and_refine_story o story0).2.1.length ∧
    1 ≤ (generate_and_refine_story o story0).2.1.length ∧
    (generate_and_refine_story o story0).2.2.length ≤
      MAX_REFINEMENT_ITERATIONS ∧
    (generate_and_refine_story o story0).2.2.getD 0 dS = story0 ∧
    (∀ k, k < (generate_and_refine_story o story0).2.1.length →
      (generate_and_refine_story o story0).2.1.getD k dJ =
        o.judge ((generate_and_refine_story o story0).2.2.getD k dS) (k + 1)
          ((generate_and_refine_story o story0).2.1.take k)) ∧
    (∀ k, k + 1 < (generate_and_refine_story o story0).2.2.length →
      (generate_and_refine_story o story0).2.2.getD (k + 1) dS =
        o.refine ((generate_and_refine_story o story0).2.2.getD k dS)
          ((generate_and_refine_story o story0).2.1.take (k + 1))) := by
  obtain ⟨c1, c2, c3, c4, c5, c6, c7, c8, c9, c10, c11⟩ :=
    refineLoop_spec o dJ dS MAX_REFINEMENT_ITERATIONS 0 story0 [] []
      (generate_and_refine_story o story0).1
      (generate_and_refine_story o story0).2.1
      (generate_and_refine_story o story0).2.2
      rfl rfl (by norm_num [MAX_REFINEMENT_ITERATIONS]) rfl rfl
      (by intro k hk; exact absurd hk (by omega))
  refine ⟨c1.symm, by omega, by omega, c6, c7, ?_⟩
  intro k hk
  exact c8 k (Nat.zero_le k) hk

/-- Witness for **C1**: under the sample oracle, the first history entry is
the round-1 judgement of the initial draft on the empty history, and the
second trace entry is the refinement of the first. -/
theorem loop_story_and_history_bounds_witness :
    (generate_and_refine_story sampleLoopOracle sampleStory).2.1.getD 0
        ⟨5, 5, 5, 5, 5, 5, "", []⟩ =
      sampleLoopOracle.judge
        ((generate_and_refine_story sampleLoopOracle sampleStory).2.2.getD 0
          ⟨"", "", "", 0⟩) 1
        ((generate_and_refine_story sampleLoopOracle sampleStory).2.1.take 0) ∧
    (generate_and_refine_story sampleLoopOracle sampleStory).2.2.getD 1
        ⟨"", "", "", 0⟩ =
      sampleLoopOracle.refine
        ((generate_and_refine_story sampleLoopOracle sampleStory).2.2.getD 0
          ⟨"", "", "", 0⟩)
        ((generate_and_refine_story sampleLoopOracle sampleStory).2.1.take 1) := by
  have h := loop_story_and_history_bounds sampleLoopOracle sampleStory
    ⟨5, 5, 5, 5, 5, 5, "", []⟩ ⟨"", "", "", 0⟩
  have hlen : (generate_and_refine_story sampleLoopOracle sampleStory).2.1.length = 2 := by
    simp [generate_and_refine_story, refineLoop, MAX_REFINEMENT_ITERATIONS,
      JUDGE_THRESHOLD, sampleLoopOracle, sampleStory]
  refine ⟨h.2.2.2.2.1 0 (by omega), h.2.2.2.2.2 0 (by rw [h.1, hlen]; omega)⟩

/-- **C2**: for every behaviour of the generation primitives, every
non-final judging round scores strictly below the threshold 7 (so the loop
stops at the first round reaching it and never refines after that round);
whenever the loop ends before the 5-round ceiling, its final round scored
at least 7; the history never exceeds 5 rounds (reaching the ceiling is not
an error — the loop is a total function); and the returned story is exactly
the story judged in the final executed round. -/
theorem loop_stops_at_threshold (o : LoopOracle) (story0 : Story)
    (dJ : JudgeFeedback) (dS : Story) :
    (∀ k, k + 1 < (generate_and_refine_story o story0).2.1.length →
      ((generate_and_refine_story o story0).2.1.getD k dJ).overall_score <
        JUDGE_THRESHOLD) ∧
    ((generate_and_refine_story o story0).2.1.length <
        MAX_REFINEMENT_ITERATIONS →
      ((generate_and_refine_story o story0).2.1.getD
        ((generate_and_refine_story o story0).2.1.length - 1) dJ).overall_score ≥
        JUDGE_THRESHOLD) ∧
    (generate_and_refine_story o story0).2.1.length ≤
      MAX_REFINEMENT_ITERATIONS ∧
    (generate_and_refine_story o story0).1 =
      (generate_and_refine_story o story0).2.2.getD
        ((generate_and_refine_story o story0).2.1.length - 1) dS := by
  obtain ⟨c1, c2, c3, c4, c5, c6, c7, c8, c9, c10, c11⟩ :=
    refineLoop_spec o dJ dS MAX_REFINEMENT_ITERATIONS 0 story0 [] []
      (generate_and_refine_story o story0).1
      (generate_and_refine_story o story0).2.1
      (generate_and_refine_story o story0).2.2
      rfl rfl (by norm_num [MAX_REFINEMENT_ITERATIONS]) rfl rfl
      (by intro k hk; exact absurd hk (by omega))
  exact ⟨c9, c10, c3, c11⟩

/-- Witness for **C2**: under the sample oracle the loop executes exactly 2
rounds; round 1 scores below the threshold, the final round reaches it, and
the returned story is the version judged in round 2. -/
theorem loop_stops_at_threshold_witness :
    ((generate_and_refine_story sampleLoopOracle sampleStory).2.1.getD 0
        ⟨5, 5, 5, 5, 5, 5, "", []⟩).overall_score < JUDGE_THRESHOLD ∧
    ((generate_and_refine_story sampleLoopOracle sampleStory).2.1.getD
        ((generate_and_refine_story sampleLoopOracle sampleStory).2.1.length - 1)
        ⟨5, 5, 5, 5, 5, 5, "", []⟩).overall_score ≥ JUDGE_THRESHOLD ∧
    (generate_and_refine_story sampleLoopOracle sampleStory).1 =
      (generate_and_refine_story sampleLoopOracle sampleStory).2.2.getD
        ((generate_and_refine_story sampleLoopOracle sampleStory).2.1.length - 1)
        ⟨"", "", "", 0⟩ := by
  have h := loop_stops_at_threshold sampleLoopOracle sampleStory
    ⟨5, 5, 5, 5, 5, 5, "", []⟩ ⟨"", "", "", 0⟩
  have hlen : (generate_and_refine_story sampleLoopOracle sampleStory).2.1.length = 2 := by
    simp [generate_and_refine_story, refineLoop, MAX_REFINEMENT_ITERATIONS,
      JUDGE_THRESHOLD, sampleLoopOracle, sampleStory]
  exact ⟨h.1 0 (by omega), h.2.1 (by rw [hlen]; norm_num [MAX_REFINEMENT_ITERATIONS]),
    h.2.2.2⟩


/-! ## String-edge helper lemmas for the continuation engine -/

theorem dropWhile_eq_self_of_head {p : Char → Bool} :
    ∀ (l : List Char), (∀ c, l.head? = some c → p c = false) →
      l.dropWhile p = l
  | [], _ => rfl
  | a :: t, h => by
    have ha := h a rfl
    simp [List.dropWhile, ha]

theorem dropWhile_head_false {p : Char → Bool} :
    ∀ (l : List Char) (c : Char), (l.dropWhile p).head? = some c → p c = false
  | [], c, h => by simp [List.dropWhile] at h
  | a :: t, c, h => by
    by_cases hp : p a
    · exact dropWhile_head_false t c (by simpa [List.dropWhile, hp] using h)
    · simp [List.dropWhile, hp] at h
      subst h
      exact eq_false_of_ne_true hp

theorem pyRstripList_eq_self {l : List Char}
    (h : ∀ c, l.getLast? = some c → pyIsSpace c = false) :
    pyRstripList l = l := by
  unfold pyRstripList
  rw [dropWhile_eq_self_of_head, List.reverse_reverse]
  intro c hc
  rw [List.head?_reverse] at hc
  exact h c hc

theorem pyLstripList_eq_self {l : List Char}
    (h : ∀ c, l.head? = some c → pyIsSpace c = false) :
    pyLstripList l = l :=
  dropWhile_eq_self_of_head l h

theorem pyStripList_getLast (l : List Char) (c : Char)
    (h : (pyStripList l).getLast? = some c) : pyIsSpace c = false := by
  unfold pyStripList pyRstripList at h
  rw [List.getLast?_reverse] at h
  exact dropWhile_head_false _ c h

theorem pyStripList_eq_self {l : List Char}
    (hh : ∀ c, l.head? = some c → pyIsSpace c = false)
    (hl : ∀ c, l.getLast? = some c → pyIsSpace c = false) :
    pyStripList l = l := by
  unfold pyStripList
  rw [pyLstripList_eq_self hh]
  exact pyRstripList_eq_self hl


theorem data_ne_nil_of_ne_empty {s : String} (h : s ≠ "") : s.data ≠ [] := by
  intro hd
  apply h
  cases s with
  | mk data =>
    simp only at hd
    subst hd
    rfl

/-! ## C7: early termination of the interactive engine on a moral -/

/-- **C7**: in a 3-step run of the interactive engine in which the user
never quits in steps 1 and 2, step-1 continuations never emit a moral, and
step-2 continuations always do, the engine terminates immediately after
committing step 2: the result is exactly the two committed steps and the
version increased by exactly 2 (two appended beats, not three). -/
theorem choice_mode_early_stop (o : ChoiceOracle) (s0 : Story)
    (h1 : o.pick 1 ≠ .quit) (h2 : o.pick 2 ≠ .quit)
    (hm1 : ∀ st ch, pyStrip (o.generate_continuation st ch 1 3).2 = "")
    (hm2 : ∀ st ch, pyStrip (o.generate_continuation st ch 2 3).2 ≠ "") :
    run_interactive_choice_mode o s0 3 =
      (choiceCommit o 3 2 (o.pick 2) ((choiceCommit o 3 1 (o.pick 1) s0).1)).1 ∧
    (run_interactive_choice_mode o s0 3).version = s0.version + 2 := by
  have hsnd : ∀ (t st : Nat) (p : UserPick) (cur : Story),
      (choiceCommit o t st p cur).2 =
        (o.generate_continuation cur
          (if p = UserPick.one then (o.propose_next_choices cur st t).1
           else (o.propose_next_choices cur st t).2) st t).2 :=
    fun _ _ _ _ => rfl
  have hmain : run_interactive_choice_mode o s0 3 =
      (choiceCommit o 3 2 (o.pick 2) ((choiceCommit o 3 1 (o.pick 1) s0).1)).1 := by
    unfold run_interactive_choice_mode runChoiceSteps
    rw [if_pos (by norm_num : (1 : Nat) ≤ 3)]
    rcases hp1 : o.pick 1 with _ | _ | _
    · simp only [hp1]
      rw [if_neg (not_not_intro (by rw [hsnd]; exact hm1 _ _))]
      unfold runChoiceSteps
      rw [if_pos (by norm_num : (2 : Nat) ≤ 3)]
      rcases hp2 : o.pick 2 with _ | _ | _
      · simp only [hp2]
        rw [if_pos (by rw [hsnd]; exact hm2 _ _)]
      · simp only [hp2]
        rw [if_pos (by rw [hsnd]; exact hm2 _ _)]
      · exact absurd hp2 h2
    · simp only [hp1]
      rw [if_neg (not_not_intro (by rw [hsnd]; exact hm1 _ _))]
      unfold runChoiceSteps
      rw [if_pos (by norm_num : (2 : Nat) ≤ 3)]
      rcases hp2 : o.pick 2 with _ | _ | _
      · simp only [hp2]
        rw [if_pos (by rw [hsnd]; exact hm2 _ _)]
      · simp only [hp2]
        rw [if_pos (by rw [hsnd]; exact hm2 _ _)]
      · exact absurd hp2 h2
    · exact absurd hp1 h1
  refine ⟨hmain, ?_⟩
  rw [hmain]
  rfl

/-- Witness for **C7** at the sample continuation oracle: the engine stops
after two committed beats with the version increased by exactly 2. -/
theorem choice_mode_early_stop_witness :
    run_interactive_choice_mode sampleChoiceOracle ⟨"T", "B", "M", 1⟩ 3 =
      (choiceCommit sampleChoiceOracle 3 2 (sampleChoiceOracle.pick 2)
        ((choiceCommit sampleChoiceOracle 3 1 (sampleChoiceOracle.pick 1)
          ⟨"T", "B", "M", 1⟩).1)).1 ∧
    (run_interactive_choice_mode sampleChoiceOracle ⟨"T", "B", "M", 1⟩ 3).version = 3 :=
  choice_mode_early_stop sampleChoiceOracle ⟨"T", "B", "M", 1⟩
    (by decide) (by decide)
    (fun st ch => rfl)
    (fun st ch => by
      change pyStrip "m" ≠ ""
      decide)

/-! ## C9: the frame of one committed continuation step -/

/-- Counterexample for **C9** as stated: a committed step whose stripped
continuation beat is empty leaves the content unchanged — no paragraph
break is appended — although the commit still happens (version
increments), so the new content is not the prior content followed by a
paragraph break and the beat. -/
theorem commit_beat_append_cex :
    (choiceCommit sampleEmptyBeatOracle 3 1 .one ⟨"T", "B", "M", 1⟩).1.version = 2 ∧
    (choiceCommit sampleEmptyBeatOracle 3 1 .one ⟨"T", "B", "M", 1⟩).1.content = "B" ∧
    (choiceCommit sampleEmptyBeatOracle 3 1 .one ⟨"T", "B", "M", 1⟩).1.content ≠
      "B" ++ "\n\n" ++
        pyStrip (sampleEmptyBeatOracle.generate_continuation
          ⟨"T", "B", "M", 1⟩ "L" 1 3).1 := by
  refine ⟨rfl, by decide, by decide⟩

/-- **C9 (amended)**: a committed continuation step whose stripped beat is
non-empty, applied to a story whose content is non-empty and neither starts
nor ends with whitespace, produces a new story with the same title, the
prior content followed by a paragraph break and the stripped beat (no loss
of prior content), the stripped parsed moral when it is non-empty and the
prior moral otherwise, and the version incremented by exactly 1.  (When the
stripped beat is empty the content is left unchanged instead.) -/
theorem commit_frame_amended (o : ChoiceOracle) (total step : Nat)
    (p : UserPick) (cur : Story) (cont moral : String)
    (hcm : o.generate_continuation cur
        (if p = UserPick.one then (o.propose_next_choices cur step total).1
         else (o.propose_next_choices cur step total).2) step total =
      (cont, moral))
    (hne : cur.content ≠ "")
    (hhead : ∀ c, cur.content.data.head? = some c → pyIsSpace c = false)
    (hlast : ∀ c, cur.content.data.getLast? = some c → pyIsSpace c = false)
    (hbeat : pyStrip cont ≠ "") :
    choiceCommit o total step p cur =
      (⟨cur.title, cur.content ++ "\n\n" ++ pyStrip cont,
        if pyStrip moral ≠ "" then pyStrip moral else cur.moral,
        cur.version + 1⟩, moral) := by
  have hA : cur.content.data ≠ [] := data_ne_nil_of_ne_empty hne
  have hSne : (pyStrip cont).data ≠ [] := data_ne_nil_of_ne_empty hbeat
  have hr : pyRstrip cur.content = cur.content := by
    unfold pyRstrip
    rw [pyRstripList_eq_self hlast]
  have hd : (cur.content ++ "\n\n" ++ pyStrip cont).data =
      cur.content.data ++ "\n\n".data ++ (pyStrip cont).data := by
    simp [String.data_append]
  have hh' : ∀ c, (cur.content ++ "\n\n" ++ pyStrip cont).data.head? = some c →
      pyIsSpace c = false := by
    intro c hcx
    rw [hd, List.head?_append_of_ne_nil _ (by simp [hA]),
      List.head?_append_of_ne_nil _ hA] at hcx
    exact hhead c hcx
  have hl' : ∀ c, (cur.content ++ "\n\n" ++ pyStrip cont).data.getLast? = some c →
      pyIsSpace c = false := by
    intro c hcx
    rw [hd, List.getLast?_append_of_ne_nil _ hSne] at hcx
    exact pyStripList_getLast cont.data c hcx
  have hc : pyStrip (cur.content ++ "\n\n" ++ pyStrip cont) =
      cur.content ++ "\n\n" ++ pyStrip cont := by
    have hs := pyStripList_eq_self hh' hl'
    show (⟨pyStripList (cur.content ++ "\n\n" ++ pyStrip cont).data⟩ : String) = _
    rw [hs]
  unfold choiceCommit
  dsimp only
  rw [hcm]
  dsimp only
  rw [hr, hc]

/-- Witness for **C9 (amended)** at the sample beat oracle: the beat is
appended after a paragraph break, the padded moral is stripped and
replaces the prior one, and the version increments by 1. -/
theorem commit_frame_amended_witness :
    choiceCommit sampleBeatOracle 3 1 .one ⟨"T", "B", "M", 1⟩ =
      (⟨"T", ("B" : String) ++ "\n\n" ++ pyStrip "beat",
        if pyStrip " m " ≠ "" then pyStrip " m " else "M", 2⟩, " m ") :=
  commit_frame_amended sampleBeatOracle 3 1 .one ⟨"T", "B", "M", 1⟩ "beat" " m "
    rfl (by decide) (by decide) (by decide) (by decide)


/-! ## C8: scan-composition helper lemmas -/

theorem scanFirst_eq_of_some {α : Type} {f : List Char → Option α}
    {l : List Char} {r : α} (h : f l = some r) : scanFirst f l = some r := by
  cases l with
  | nil => simpa [scanFirst] using h
  | cons a t => simp [scanFirst, h]

theorem scanFirst_append_none {α : Type} (f : List Char → Option α) :
    ∀ (l₁ l₂ : List Char),
      (∀ k, k < l₁.length → f (l₁.drop k ++ l₂) = none) →
      scanFirst f (l₁ ++ l₂) = scanFirst f l₂
  | [], l₂, _ => rfl
  | a :: t, l₂, h => by
    have h0 := h 0 (by simp)
    simp only [List.drop_zero] at h0
    rw [List.cons_append]
    rw [scanFirst]
    rw [← List.cons_append, h0]
    exact scanFirst_append_none f t l₂ (fun k hk => by
      have := h (k + 1) (by simp; omega)
      simpa using this)

theorem captureLazy_append {stop : List Char → Bool} :
    ∀ (l₁ l₂ : List Char),
      (∀ k, k < l₁.length → stop (l₁.drop k ++ l₂) = false) →
      captureLazy stop (l₁ ++ l₂) = l₁ ++ captureLazy stop l₂
  | [], l₂, _ => rfl
  | a :: t, l₂, h => by
    have h0 := h 0 (by simp)
    simp only [List.drop_zero] at h0
    rw [List.cons_append]
    rw [captureLazy]
    rw [← List.cons_append, h0]
    simp only [Bool.false_eq_true, if_false]
    rw [List.cons_append]
    congr 1
    exact captureLazy_append t l₂ (fun k hk => by
      have := h (k + 1) (by simp; omega)
      simpa using this)

theorem matchCI_stop_char {c : Char} :
    ∀ (pat s l₂ : List Char), (∀ p ∈ pat, charCI p c = false) →
      (matchCI pat (s ++ c :: l₂)).isSome = true → (matchCI pat s).isSome = true
  | [], s, l₂, _, _ => by simp [matchCI]
  | p :: pt, [], l₂, hp, h => by
    rw [List.nil_append, matchCI] at h
    rw [hp p (by simp)] at h
    simp at h
  | p :: pt, a :: t, l₂, hp, h => by
    rw [List.cons_append, matchCI] at h
    rw [matchCI]
    by_cases hca : charCI p a
    · rw [if_pos hca] at h ⊢
      exact matchCI_stop_char pt t l₂ (fun q hq => hp q (by simp [hq])) h
    · rw [if_neg hca] at h
      simp at h

theorem containsCI_of_drop {pat : List Char} :
    ∀ (l : List Char) (k : Nat),
      startsWithCI pat (l.drop k) = true → k < l.length → containsCI pat l = true
  | [], k, _, hk => by simp at hk
  | a :: t, 0, h, _ => by
    rw [containsCI]
    simp only [List.drop_zero] at h
    simp [h]
  | a :: t, k + 1, h, hk => by
    rw [containsCI]
    have := containsCI_of_drop t k (by simpa using h) (by simpa using hk)
    simp [this]

theorem no_match_in_region {pat : List Char} {l₁ : List Char} {c : Char}
    {l₂ : List Char} (hno : containsCI pat l₁ = false)
    (hc : ∀ p ∈ pat, charCI p c = false) {k : Nat} (hk : k < l₁.length) :
    startsWithCI pat (l₁.drop k ++ c :: l₂) = false := by
  by_contra hcon
  have hs : startsWithCI pat (l₁.drop k ++ c :: l₂) = true := by
    revert hcon
    cases startsWithCI pat (l₁.drop k ++ c :: l₂) <;> simp
  have : startsWithCI pat (l₁.drop k) = true :=
    matchCI_stop_char pat (l₁.drop k) l₂ hc hs
  rw [containsCI_of_drop l₁ k this hk] at hno
  exact Bool.true_eq_false.mp hno

theorem no_match_headfree {pat : List Char} {p0 : Char}
    (hp : pat.head? = some p0) {l₁ l₂ : List Char}
    (hh : ∀ a ∈ l₁, charCI p0 a = false) {k : Nat} (hk : k < l₁.length) :
    startsWithCI pat (l₁.drop k ++ l₂) = false := by
  cases pat with
  | nil => simp at hp
  | cons q pt =>
    have hq : q = p0 := by simpa using hp
    subst hq
    have hdrop : l₁.drop k = l₁[k] :: l₁.drop (k + 1) :=
      List.drop_eq_getElem_cons hk
    rw [hdrop, List.cons_append]
    unfold startsWithCI
    rw [matchCI]
    rw [hh l₁[k] (l₁.getElem_mem hk)]
    simp

theorem titleAt_none {l : List Char}
    (h : startsWithCI "title".data l = false) : titleAt l = none := by
  unfold titleAt
  unfold startsWithCI at h
  rcases hm : matchCI "title".data l with _ | r
  · rfl
  · rw [hm] at h
    simp at h

theorem moralAt_none {l : List Char}
    (h : startsWithCI "moral".data l = false) : moralAt l = none := by
  unfold moralAt
  unfold startsWithCI at h
  rcases hm : matchCI "moral".data l with _ | r
  · rfl
  · rw [hm] at h
    simp at h

theorem storyAt_none {l : List Char}
    (h : startsWithCI "story".data l = false) : storyAt l = none := by
  unfold storyAt
  unfold startsWithCI at h
  rcases hm : matchCI "story".data l with _ | r
  · rfl
  · rw [hm] at h
    simp at h

theorem moralColonStop_false {t : List Char}
    (h : startsWithCI "moral".data t = false) : moralColonStop t = false := by
  unfold moralColonStop
  unfold startsWithCI at h
  rcases hm : matchCI "moral".data t with _ | r
  · rfl
  · rw [hm] at h
    simp at h

theorem dollarStop_false_of_length {t : List Char} (h : 2 ≤ t.length) :
    dollarStop t = false := by
  unfold dollarStop
  simp only [decide_eq_false_iff_not]
  intro he
  rw [he] at h
  simp at h

theorem dropSpaces_cons_false {a : Char} (l : List Char)
    (h : pyIsSpace a = false) : dropSpaces (a :: l) = a :: l := by
  simp [dropSpaces, List.dropWhile, h]

theorem dropSpaces_cons_true {a : Char} (l : List Char)
    (h : pyIsSpace a = true) : dropSpaces (a :: l) = dropSpaces l := by
  simp [dropSpaces, List.dropWhile, h]

theorem dropSpaces_eq_self {l : List Char}
    (h : ∀ c, l.head? = some c → pyIsSpace c = false) : dropSpaces l = l :=
  dropWhile_eq_self_of_head l h

theorem takeWhile_append_stop {q : Char → Bool} :
    ∀ (l₁ : List Char) (c : Char) (l₂ : List Char),
      (∀ x ∈ l₁, q x = true) → q c = false →
      (l₁ ++ c :: l₂).takeWhile q = l₁
  | [], c, l₂, _, hc => by simp [List.takeWhile, hc]
  | a :: t, c, l₂, h, hc => by
    rw [List.cons_append]
    rw [List.takeWhile]
    rw [h a (by simp)]
    simpa using takeWhile_append_stop t c l₂ (fun x hx => h x (by simp [hx])) hc

theorem pyRstripList_append_newline {l : List Char}
    (hl : ∀ c, l.getLast? = some c → pyIsSpace c = false) :
    pyRstripList (l ++ ['\n']) = l := by
  unfold pyRstripList
  rw [List.reverse_append]
  have h0 : (['\n'] : List Char).reverse ++ l.reverse = '\n' :: l.reverse := rfl
  rw [h0]
  have hsp : pyIsSpace '\n' = true := by decide
  have h1 : List.dropWhile pyIsSpace ('\n' :: l.reverse) =
      List.dropWhile pyIsSpace l.reverse := by
    simp [List.dropWhile, hsp]
  rw [h1]
  rw [dropWhile_eq_self_of_head _
    (fun c hc => hl c (by rwa [List.head?_reverse] at hc))]
  exact List.reverse_reverse l

theorem natReprAux_no_space :
    ∀ (fuel n : Nat) (acc : List Char),
      (∀ c ∈ acc, pyIsSpace c = false) →
      ∀ c ∈ natReprAux fuel n acc, pyIsSpace c = false
  | 0, _, _, hacc => hacc
  | fuel + 1, n, acc, hacc => by
    rw [natReprAux]
    split
    · next h =>
      intro c hc
      rcases List.mem_cons.mp hc with hc | hc
      · subst hc
        interval_cases n <;> decide
      · exact hacc c hc
    · next h =>
      refine natReprAux_no_space fuel (n / 10) _ ?_
      intro c hc
      rcases List.mem_cons.mp hc with hc | hc
      · have h10 : n % 10 < 10 := Nat.mod_lt _ (by norm_num)
        subst hc
        set r := n % 10 with hr
        interval_cases r <;> decide
      · exact hacc c hc

theorem natReprAux_ne_nil :
    ∀ (fuel n : Nat) (acc : List Char),
      1 ≤ fuel ∨ acc ≠ [] → natReprAux fuel n acc ≠ []
  | 0, _, acc, h => by
    rcases h with h | h
    · omega
    · simpa [natReprAux] using h
  | fuel + 1, n, acc, _ => by
    rw [natReprAux]
    split
    · simp
    · exact natReprAux_ne_nil fuel (n / 10) _ (Or.inr (by simp))

theorem natRepr_no_space (n : Nat) : ∀ c ∈ natRepr n, pyIsSpace c = false :=
  natReprAux_no_space (n + 1) n [] (by simp)

theorem natRepr_ne_nil (n : Nat) : natRepr n ≠ [] :=
  natReprAux_ne_nil (n + 1) n [] (Or.inl (by omega))


theorem dropLabelSep_colon_space {X : List Char}
    (hX : ∀ c, X.head? = some c → pyIsSpace c = false) :
    dropLabelSep (':' :: ' ' :: X) = X := by
  unfold dropLabelSep
  rw [dropSpaces_cons_false _ (by decide)]
  show dropSpaces (' ' :: X) = X
  rw [dropSpaces_cons_true _ (by decide)]
  exact dropSpaces_eq_self hX

theorem dropLabelSep_colon_newline {X : List Char}
    (hX : ∀ c, X.head? = some c → pyIsSpace c = false) :
    dropLabelSep (':' :: '\n' :: X) = X := by
  unfold dropLabelSep
  rw [dropSpaces_cons_false _ (by decide)]
  show dropSpaces ('\n' :: X) = X
  rw [dropSpaces_cons_true _ (by decide)]
  exact dropSpaces_eq_self hX

theorem captureLazy_eq_nil {stop : List Char → Bool} {l : List Char}
    (h : stop l = true) : captureLazy stop l = [] := by
  cases l with
  | nil => rfl
  | cons a t =>
    rw [captureLazy]
    rw [if_pos h]

theorem head?_append_left_of_ne_nil {l₁ l₂ : List Char} (h : l₁ ≠ []) :
    (l₁ ++ l₂).head? = l₁.head? :=
  List.head?_append_of_ne_nil l₁ h

/-- The title scan of `parse_story_response` on a formatted story: the
match is at position 0 and captures exactly the title. -/
theorem title_scan (T L3 : List Char) (hT : T ≠ [])
    (hth : ∀ c, T.head? = some c → pyIsSpace c = false)
    (htn : '\n' ∉ T) :
    ∃ g0, scanFirst titleAt ("TITLE: ".data ++ (T ++ ('\n' :: L3))) =
      some (g0, T) := by
  have hmain : titleAt ("TITLE: ".data ++ (T ++ ('\n' :: L3))) =
      some ((("TITLE: ".data ++ (T ++ ('\n' :: L3)))).take
        (("TITLE: ".data ++ (T ++ ('\n' :: L3))).length -
          (T ++ ('\n' :: L3)).length + T.length), T) := by
    unfold titleAt
    rw [show matchCI "title".data ("TITLE: ".data ++ (T ++ ('\n' :: L3))) =
      some (':' :: ' ' :: (T ++ ('\n' :: L3))) from rfl]
    dsimp only
    rw [dropLabelSep_colon_space (by
      intro c hc
      rw [head?_append_left_of_ne_nil hT] at hc
      exact hth c hc)]
    rw [takeWhile_append_stop T '\n' L3
      (fun x hx => by simp; exact fun he => htn (he ▸ hx)) (by decide)]
  exact ⟨_, scanFirst_eq_of_some hmain⟩

/-- The moral scan of `parse_story_response` on a formatted story: the
first case-insensitive `moral` occurrence is the real `MORAL: ` header, and
the lazy-to-dollar capture runs to the very end of the text. -/
theorem moral_scan (T C Zm : List Char)
    (htm : containsCI "moral".data T = false)
    (hcm : containsCI "moral".data C = false)
    (hmh : ∀ c, Zm.head? = some c → pyIsSpace c = false)
    (hend : Zm.getLast? ≠ some '\n') :
    ∃ g0, scanFirst moralAt
      ("TITLE: ".data ++ (T ++ ('\n' :: ("STORY:\n".data ++
        (C ++ ('\n' :: ("MORAL: ".data ++ Zm))))))) = some (g0, Zm) := by
  have hmoral_head : ("moral".data).head? = some 'm' := rfl
  have hstep : ∀ (L : List Char),
      scanFirst moralAt ('\n' :: L) = scanFirst moralAt L := by
    intro L
    rw [scanFirst]
    rw [show moralAt ('\n' :: L) = none from moralAt_none (by rfl)]
  have hpeel : scanFirst moralAt
      ("TITLE: ".data ++ (T ++ ('\n' :: ("STORY:\n".data ++
        (C ++ ('\n' :: ("MORAL: ".data ++ Zm))))))) =
      scanFirst moralAt ("MORAL: ".data ++ Zm) := by
    rw [scanFirst_append_none _ _ _ (fun k hk =>
      moralAt_none (no_match_headfree hmoral_head (by decide) hk))]
    rw [scanFirst_append_none _ _ _ (fun k hk =>
      moralAt_none (no_match_in_region htm (by decide) hk))]
    rw [hstep]
    rw [scanFirst_append_none _ _ _ (fun k hk =>
      moralAt_none (no_match_headfree hmoral_head (by decide) hk))]
    rw [scanFirst_append_none _ _ _ (fun k hk =>
      moralAt_none (no_match_in_region hcm (by decide) hk))]
    rw [hstep]
  rw [hpeel]
  have hmain : moralAt ("MORAL: ".data ++ Zm) =
      some ((("MORAL: ".data ++ Zm)).take
        (("MORAL: ".data ++ Zm).length - Zm.length + Zm.length), Zm) := by
    unfold moralAt
    rw [show matchCI "moral".data ("MORAL: ".data ++ Zm) =
      some (':' :: ' ' :: Zm) from rfl]
    dsimp only
    rw [dropLabelSep_colon_space hmh]
    rw [show captureToDollar Zm = Zm from by
      unfold captureToDollar
      rw [if_neg hend]]
  exact ⟨_, scanFirst_eq_of_some hmain⟩

/-- The story scan of `parse_story_response` on a formatted story: the
first case-insensitive `story` occurrence is the real `STORY:` header, and
the lazy capture stops exactly at the `MORAL:` lookahead, capturing the
content plus the separating newline. -/
theorem story_scan (T C Zm : List Char) (hC : C ≠ [])
    (hts : containsCI "story".data T = false)
    (hch : ∀ c, C.head? = some c → pyIsSpace c = false)
    (hcm : containsCI "moral".data C = false) :
    scanFirst storyAt
      ("TITLE: ".data ++ (T ++ ('\n' :: ("STORY:\n".data ++
        (C ++ ('\n' :: ("MORAL: ".data ++ Zm))))))) = some (C ++ ['\n']) := by
  have hstory_head : ("story".data).head? = some 's' := rfl
  rw [scanFirst_append_none _ _ _ (fun k hk =>
    storyAt_none (no_match_headfree hstory_head (by decide) hk))]
  rw [scanFirst_append_none _ _ _ (fun k hk =>
    storyAt_none (no_match_in_region hts (by decide) hk))]
  have hstep : ∀ (L : List Char),
      scanFirst storyAt ('\n' :: L) = scanFirst storyAt L := by
    intro L
    rw [scanFirst]
    rw [show storyAt ('\n' :: L) = none from storyAt_none (by rfl)]
  rw [hstep]
  apply scanFirst_eq_of_some
  unfold storyAt
  rw [show matchCI "story".data ("STORY:\n".data ++
    (C ++ ('\n' :: ("MORAL: ".data ++ Zm)))) =
    some (':' :: '\n' :: (C ++ ('\n' :: ("MORAL: ".data ++ Zm)))) from rfl]
  dsimp only
  rw [dropLabelSep_colon_newline (by
    intro c hc
    rw [head?_append_left_of_ne_nil hC] at hc
    exact hch c hc)]
  have hcap : captureLazy (fun t => moralColonStop t || dollarStop t)
      (C ++ ('\n' :: ("MORAL: ".data ++ Zm))) = C ++ ['\n'] := by
    rw [captureLazy_append C _ (fun k hk => by
      have hm : moralColonStop (C.drop k ++ '\n' :: ("MORAL: ".data ++ Zm)) = false :=
        moralColonStop_false (no_match_in_region hcm (by decide) hk)
      have hd : dollarStop (C.drop k ++ '\n' :: ("MORAL: ".data ++ Zm)) = false := by
        apply dollarStop_false_of_length
        simp
        omega
      show (moralColonStop (C.drop k ++ '\n' :: ("MORAL: ".data ++ Zm)) ||
        dollarStop (C.drop k ++ '\n' :: ("MORAL: ".data ++ Zm))) = false
      rw [hm, hd]
      rfl)]
    congr 1
  rw [hcap]

/-- C8 (amended): on a well-formed story (non-empty fields whose edges are
not whitespace, a single-line title free of case-insensitive `story` and
`moral`, content free of case-insensitive `moral` and not opening with a
`story` label), parsing the formatted context recovers the title and the
content exactly, but the recovered moral is the original moral with the
`VERSION` line appended: the lazy `(.*?)$` moral capture runs to the end of
the formatted text, which includes the `VERSION: n` line. -/
theorem story_roundtrip_amended (st : Story)
    (hT : st.title.data ≠ [])
    (hTh : ∀ c, st.title.data.head? = some c → pyIsSpace c = false)
    (hTl : ∀ c, st.title.data.getLast? = some c → pyIsSpace c = false)
    (hTn : '\n' ∉ st.title.data)
    (hTs : containsCI "story".data st.title.data = false)
    (hTm : containsCI "moral".data st.title.data = false)
    (hC : st.content.data ≠ [])
    (hCh : ∀ c, st.content.data.head? = some c → pyIsSpace c = false)
    (hCl : ∀ c, st.content.data.getLast? = some c → pyIsSpace c = false)
    (hCm : containsCI "moral".data st.content.data = false)
    (hCs : startsWithCI "story".data st.content.data = false)
    (hM : st.moral.data ≠ [])
    (hMh : ∀ c, st.moral.data.head? = some c → pyIsSpace c = false) :
    parse_story_response (format_story_for_context st) "Untitled Story" =
      (st.title, st.content,
        st.moral ++ "\nVERSION: " ++ (⟨natRepr st.version⟩ : String)) := by
  have hfmt : (format_story_for_context st).data =
      "TITLE: ".data ++ (st.title.data ++ ('\n' :: ("STORY:\n".data ++
        (st.content.data ++ ('\n' :: ("MORAL: ".data ++
          (st.moral.data ++ ('\n' :: ("VERSION: ".data ++
            natRepr st.version))))))))) := by
    simp only [format_story_for_context, String.data_append, List.append_assoc]
    rfl
  have hassoc : st.moral.data ++ ('\n' :: ("VERSION: ".data ++
      natRepr st.version)) =
      (st.moral.data ++ ('\n' :: "VERSION: ".data)) ++ natRepr st.version := by
    simp
  have hZh : ∀ c, (st.moral.data ++ ('\n' :: ("VERSION: ".data ++
      natRepr st.version))).head? = some c → pyIsSpace c = false := by
    intro c hc
    rw [head?_append_left_of_ne_nil hM] at hc
    exact hMh c hc
  have hZl : ∀ c, (st.moral.data ++ ('\n' :: ("VERSION: ".data ++
      natRepr st.version))).getLast? = some c → pyIsSpace c = false := by
    intro c hc
    rw [hassoc, List.getLast?_append_of_ne_nil _ (natRepr_ne_nil st.version)] at hc
    exact natRepr_no_space st.version c (List.mem_of_mem_getLast? hc)
  have hZend : (st.moral.data ++ ('\n' :: ("VERSION: ".data ++
      natRepr st.version))).getLast? ≠ some '\n' := fun hc =>
    absurd (hZl '\n' hc) (by decide)
  obtain ⟨g0T, hscanT⟩ := title_scan st.title.data
    ("STORY:\n".data ++ (st.content.data ++ ('\n' :: ("MORAL: ".data ++
      (st.moral.data ++ ('\n' :: ("VERSION: ".data ++ natRepr st.version)))))))
    hT hTh hTn
  obtain ⟨g0M, hscanM⟩ := moral_scan st.title.data st.content.data
    (st.moral.data ++ ('\n' :: ("VERSION: ".data ++ natRepr st.version)))
    hTm hCm hZh hZend
  have hscanS := story_scan st.title.data st.content.data
    (st.moral.data ++ ('\n' :: ("VERSION: ".data ++ natRepr st.version)))
    hC hTs hCh hCm
  have hpsT : pyStripList st.title.data = st.title.data :=
    pyStripList_eq_self hTh hTl
  have hpsC : pyStripList st.content.data = st.content.data :=
    pyStripList_eq_self hCh hCl
  have hpsS : pyStripList (st.content.data ++ ['\n']) = st.content.data := by
    unfold pyStripList
    rw [pyLstripList_eq_self (by
      intro c hc
      rw [head?_append_left_of_ne_nil hC] at hc
      exact hCh c hc)]
    exact pyRstripList_append_newline hCl
  have hpsZ : pyStripList (st.moral.data ++ ('\n' :: ("VERSION: ".data ++
      natRepr st.version))) =
      st.moral.data ++ ('\n' :: ("VERSION: ".data ++ natRepr st.version)) :=
    pyStripList_eq_self hZh hZl
  have hrm : removeStoryMarker st.content.data = st.content.data := by
    unfold removeStoryMarker
    unfold startsWithCI at hCs
    rcases hm : matchCI "story".data st.content.data with _ | r
    · rfl
    · rw [hm] at hCs
      simp at hCs
  have hTne : st.title.data.isEmpty = false := by
    cases h : st.title.data with
    | nil => exact absurd h hT
    | cons a t => rfl
  have hCne : st.content.data.isEmpty = false := by
    cases h : st.content.data with
    | nil => exact absurd h hC
    | cons a t => rfl
  unfold parse_story_response
  dsimp only
  rw [hfmt]
  rw [hscanT, hscanM, hscanS]
  dsimp only
  rw [hpsT, hTne, hpsS, hCne, hpsZ]
  simp only [Bool.false_eq_true, if_false, Bool.not_false, if_true]
  rw [hrm, hpsC]
  simp only [Prod.mk.injEq]
  refine ⟨trivial, trivial, ?_⟩
  apply String.ext
  rw [String.data_append, String.data_append]
  exact hassoc

theorem head_nonspace_of {l : List Char} {a : Char} (h : l.head? = some a)
    (ha : pyIsSpace a = false) :
    ∀ c, l.head? = some c → pyIsSpace c = false := by
  intro c hc
  rw [h] at hc
  injection hc with h2
  rw [← h2]
  exact ha

theorem getLast_nonspace_of {l : List Char} {a : Char} (h : l.getLast? = some a)
    (ha : pyIsSpace a = false) :
    ∀ c, l.getLast? = some c → pyIsSpace c = false := by
  intro c hc
  rw [h] at hc
  injection hc with h2
  rw [← h2]
  exact ha

/-- C8 counterexample: formatting the story `("A", "B", "C", 1)` and parsing
it back does not reproduce the `("A", "B", "C")` fields: the parsed moral is
`"C\nVERSION: 1"`, since the moral capture runs to the end of the formatted
context, which ends with the `VERSION` line. -/
theorem story_roundtrip_cex :
    parse_story_response (format_story_for_context ⟨"A", "B", "C", 1⟩)
        "Untitled Story" ≠ ("A", "B", "C") ∧
      parse_story_response (format_story_for_context ⟨"A", "B", "C", 1⟩)
        "Untitled Story" = ("A", "B", "C\nVERSION: 1") := by
  decide

/-- Witness: the round-trip law at the concrete story `("A", "B", "C", 1)`.
The parsed moral carries the appended `VERSION` line. -/
theorem story_roundtrip_amended_witness :
    parse_story_response (format_story_for_context ⟨"A", "B", "C", 1⟩)
        "Untitled Story" =
      ("A", "B", ("C" : String) ++ "\nVERSION: " ++
        (⟨natRepr 1⟩ : String)) :=
  story_roundtrip_amended ⟨"A", "B", "C", 1⟩
    (by decide)
    (head_nonspace_of rfl (by decide))
    (getLast_nonspace_of rfl (by decide))
    (by decide)
    (by decide)
    (by decide)
    (by decide)
    (head_nonspace_of rfl (by decide))
    (getLast_nonspace_of rfl (by decide))
    (by decide)
    (by decide)
    (by decide)
    (head_nonspace_of rfl (by decide))

end Bedtime
